import Mathlib

/-!
# The `/bfhl` request dispatcher of `server.js`

A shallow embedding of the numeric helpers (`getFibonacci`, `checkPrime`,
`getPrimes`, `getGCD`, `getHCF`, `getLCM`, `calculateLCM`), of `askAI` and of
the `POST /bfhl` handler, followed by the theorems about them.

Numbers.  A JavaScript number is an IEEE-754 binary64 value.  Every number the
numeric helpers receive has passed `Number.isInteger`, so it is an integer, and
it is modelled by an `Int`.  `Math.abs`, `%`, the comparisons and `===` are
exact on such values.  `+` and `*` return the exact result rounded to the
nearest binary64 value (ties to even): `roundToDouble`.  The quotient of `/` is
an integer only when the divisor divides the dividend, and is then exact.
-/

namespace Bfhl

/-! ## Number model -/

/-- The least `e`, counted up from the third argument, with `m / 2 ^ e < 2 ^ 53`:
the number of low bits of `m` that do not fit a 53-bit significand.  The first
argument bounds the search; `m` itself is always enough. -/
def excessBits : Nat → Nat → Nat → Nat
  | 0, _, e => e
  | fuel + 1, m, e => if m / 2 ^ e < 2 ^ 53 then e else excessBits fuel m (e + 1)

/-- The binary64 value nearest to the integer `x`, ties going to the even
significand (the IEEE-754 default rounding, which `+` and `*` apply to their
exact result).  Integers of magnitude below `2 ^ 53` are returned unchanged.
Overflow to `Infinity` (magnitude `2 ^ 1024` and above) is handled by the
callers that can reach it. -/
def roundToDouble (x : Int) : Int :=
  let m := x.natAbs
  if m < 2 ^ 53 then x
  else
    let e := excessBits m m 0
    let q := m / 2 ^ e
    let r := m % 2 ^ e
    let half := 2 ^ (e - 1)
    let q1 := if r < half then q else if half < r then q + 1 else if q % 2 = 0 then q else q + 1
    Int.sign x * ((q1 * 2 ^ e : Nat) : Int)

/-- The operator `+` on two integer-valued numbers.  The sums `getFibonacci`
forms stay far below `2 ^ 1024` for every `n` the handler admits (`n <= 1000`),
so overflow to `Infinity` does not arise there. -/
def jsAdd (a b : Int) : Int := roundToDouble (a + b)

/-- The function `Math.abs`. -/
def mathAbs (a : Int) : Int := if a < 0 then -a else a

/-- The operator `%` on integer-valued numbers: the remainder takes the sign of
the dividend. -/
def jsMod (a b : Int) : Int := a.tmod b

/-! ## `getFibonacci` -/

/-- The loop `for (let i = 2; i < n; i++) fib.push(fib[i - 1] + fib[i - 2])`;
the first argument is the number of iterations left, `n - i`. -/
def fibLoop : Nat → Nat → List Int → List Int
  | 0, _, fib => fib
  | k + 1, i, fib =>
    fibLoop k (i + 1) (fib ++ [jsAdd (fib.getD (i - 1) 0) (fib.getD (i - 2) 0)])

/-- The function `getFibonacci(n)` of `server.js`. -/
def getFibonacci (n : Int) : List Int :=
  if n ≤ 0 then []
  else if n = 1 then [0]
  else (fibLoop (n.toNat - 2) 2 [0, 1]).take n.toNat

/-- The Fibonacci numbers as the specification defines them:
`F(0) = 0`, `F(1) = 1`, `F(i) = F(i-1) + F(i-2)`. -/
def canonicalFib : Nat → Nat
  | 0 => 0
  | 1 => 1
  | i + 2 => canonicalFib (i + 1) + canonicalFib i

/-- The list `[F(0), ..., F(i-1)]` of the first `i` canonical Fibonacci numbers. -/
def canonicalPrefix (i : Nat) : List Int :=
  (List.range i).map fun j => (canonicalFib j : Int)

/-! ## `checkPrime` and `getPrimes` -/

/-- The loop `for (let i = 3; i <= sq; i += 2) if (num % i === 0) return false;`
followed by `return true`.  `sq` is the integer part of `Math.sqrt(num)`: for an
integer `i`, `i <= Math.sqrt(num)` holds exactly when `i` is at most that
integer part. -/
def checkPrimeLoop (num : Int) (sq : Nat) (i : Nat) : Bool :=
  if i ≤ sq then
    if jsMod num i = 0 then false else checkPrimeLoop num sq (i + 2)
  else true
termination_by sq + 1 - i

/-- The function `checkPrime(num)` of `server.js`.  An odd number is below
`2 ^ 53`, so `i` stays small and `i += 2` is exact.  `Math.sqrt` returns the
correctly rounded root, whose integer part is `Nat.sqrt num`, or one more when
the root rounds up to an integer; `checkPrimeLoop_sqrt_slack` shows that the
extra trial division does not change the result. -/
def checkPrime (num : Int) : Bool :=
  if num ≤ 1 then false
  else if num = 2 then true
  else if jsMod num 2 = 0 then false
  else checkPrimeLoop num (Nat.sqrt num.toNat) 3

/-- The function `getPrimes(numbers)` of `server.js`. -/
def getPrimes (numbers : List Int) : List Int :=
  numbers.filter fun num => checkPrime num

/-- Primality as the specification words it: `num >= 2` and no divisor `d`
with `1 < d < num`. -/
def IsPrimeNumber (num : Int) : Prop :=
  2 ≤ num ∧ ∀ d : Int, 1 < d → d < num → ¬ d ∣ num

/-! ## `getGCD` and `getHCF` -/

/-- The loop `while (b !== 0) { let temp = b; b = a % b; a = temp; }` followed
by `return a`. -/
def getGCDLoop (a b : Int) : Int :=
  if b = 0 then a else getGCDLoop b (jsMod a b)
termination_by b.natAbs
decreasing_by
  have h1 : (a.tmod b).natAbs = a.natAbs % b.natAbs := by
    cases a <;> cases b <;> simp [Int.tmod] <;> norm_cast
  simp only [jsMod, h1]
  exact Nat.mod_lt _ (Int.natAbs_pos.2 (by assumption))

/-- The function `getGCD(a, b)` of `server.js`. -/
def getGCD (a b : Int) : Int := getGCDLoop (mathAbs a) (mathAbs b)

/-- The loop of `getHCF` over the elements after the first:
`res = getGCD(res, numbers[i]); if (res === 1) return 1;`, then `return res`. -/
def getHCFLoop : Int → List Int → Int
  | res, [] => res
  | res, x :: rest =>
    let res1 := getGCD res x
    if res1 = 1 then 1 else getHCFLoop res1 rest

/-- The function `getHCF(numbers)` of `server.js`. -/
def getHCF (numbers : List Int) : Int :=
  match numbers with
  | [] => 0
  | [x] => mathAbs x
  | x :: rest => getHCFLoop x rest

/-- The loop of `getHCF` without the early `return 1`: the plain left fold of
the pairwise `getGCD`. -/
def plainHCFLoop : Int → List Int → Int
  | res, [] => res
  | res, x :: rest => plainHCFLoop (getGCD res x) rest

/-- The function `getHCF` without the early `return 1` in its loop. -/
def plainHCF (numbers : List Int) : Int :=
  match numbers with
  | [] => 0
  | [x] => mathAbs x
  | x :: rest => plainHCFLoop x rest

/-- The greatest common divisor of the magnitudes of a list of integers, folded
from 0 (the neutral element of `gcd`). -/
def listGcd (l : List Int) : Nat :=
  l.foldl (fun acc x => Nat.gcd acc x.natAbs) 0

/-! ## `getLCM` and `calculateLCM`

`*` can leave the integers that binary64 represents exactly, and `/` can leave
the integers altogether.  The two functions therefore return an `Option`:
`some v` when the JavaScript run returns the integer `v`, and `none` when the
run leaves the finite integers (a product overflows to `Infinity`, or a quotient
is a fraction); what the run does after that point is not modelled. -/

/-- The operator `*` on two integer-valued numbers: the rounded product, or
`none` when it overflows to `Infinity`. -/
def jsMul (a b : Int) : Option Int :=
  let p := roundToDouble (a * b)
  if p.natAbs < 2 ^ 1024 then some p else none

/-- The operator `/` on two integer-valued numbers with a non-zero divisor: the
quotient when it is an integer (it is then a binary64 value, since its odd part
divides the odd part of `x`), and `none` when it is a fraction. -/
def jsDiv (x g : Int) : Option Int :=
  if g ≠ 0 ∧ x % g = 0 then some (x / g) else none

/-- The function `getLCM(a, b)` of `server.js`. -/
def getLCM (a b : Int) : Option Int :=
  let a1 := mathAbs a
  let b1 := mathAbs b
  if a1 = 0 ∨ b1 = 0 then some 0
  else (jsMul a1 b1).bind fun p => jsDiv p (getGCD a1 b1)

/-- The loop of `calculateLCM` over the elements after the first:
`res = getLCM(res, numbers[i])`, then `return res`. -/
def calculateLCMLoop : Int → List Int → Option Int
  | res, [] => some res
  | res, x :: rest => (getLCM res x).bind fun res1 => calculateLCMLoop res1 rest

/-- The function `calculateLCM(numbers)` of `server.js`. -/
def calculateLCM (numbers : List Int) : Option Int :=
  match numbers with
  | [] => some 0
  | [x] => some (mathAbs x)
  | x :: rest => calculateLCMLoop x rest

/-- The LCM computation as the specification words it, in exact arithmetic:
`result = |first element|`, then `result = lcm(result, element)` for each later
element, with `lcm(a, b) = |a * b| / gcd(a, b)`. -/
def specLcmFold : List Int → Nat
  | [] => 0
  | x :: rest => rest.foldl (fun acc y => acc * y.natAbs / Nat.gcd acc y.natAbs) x.natAbs

/-- The product of the magnitudes of the elements of a list. -/
def magnitudeProduct (l : List Int) : Nat :=
  (l.map Int.natAbs).prod

/-! ## `askAI` -/

/-- The white space of JavaScript (`String.prototype.trim`, the class `\s`),
by code point. -/
def isJsWhitespace (c : Char) : Bool :=
  let n := c.toNat
  n = 9 || n = 10 || n = 11 || n = 12 || n = 13 || n = 32 || n = 160 || n = 5760 ||
    (8192 ≤ n && n ≤ 8202) || n = 8232 || n = 8233 || n = 8239 || n = 8287 ||
    n = 12288 || n = 65279

/-- The characters of the class `[.,!?;:]`, by code point. -/
def isTrailingPunctuation (c : Char) : Bool :=
  let n := c.toNat
  n = 46 || n = 44 || n = 33 || n = 63 || n = 59 || n = 58

/-- The method `trim()`, on the characters of a string. -/
def jsTrim (s : List Char) : List Char :=
  ((s.dropWhile isJsWhitespace).reverse.dropWhile isJsWhitespace).reverse

/-- The expression `ans.trim().split(/\s+/)[0]`: the trimmed text up to its
first white space (the whole of it when it has none, also when it is empty). -/
def firstWord (ans : List Char) : List Char :=
  (jsTrim ans).takeWhile fun c => !isJsWhitespace c

/-- The expression `w.replace(/[.,!?;:]+$/g, '')`: `w` without its longest
trailing run of the six punctuation characters. -/
def stripTrailingPunctuation (w : List Char) : List Char :=
  (w.reverse.dropWhile isTrailingPunctuation).reverse

/-- The answer `askAI` returns for the text of the first candidate. -/
def normalizeAnswer (ans : String) : String :=
  String.mk (stripTrailingPunctuation (firstWord ans.data))

/-- What the call `axios.post(endpoint, ...)` and the reading of its result come
to.  `answered texts`: a response arrived and `texts` are the texts of its
candidates, in order.  `upstream status`: the call threw with a response
attached (`err.response`), of that HTTP status.  `failed message`: an error
without a response was thrown (network failure, the 10 s timeout, a malformed
body), with that message. -/
inductive ProviderReply where
  | answered (texts : List String)
  | upstream (status : Nat)
  | failed (message : String)

/-- The function `askAI(question)` of `server.js`: `Except.ok` is the returned
answer, `Except.error` the message of the thrown `Error`.  `provider` maps the
prompt sent to what the call comes to.  The `throw new Error('No AI response')`
stands inside the `try` block, so the `catch` wraps it like any other error
without a response. -/
def askAI (apiKey : String) (provider : String → ProviderReply) (question : String) :
    Except String String :=
  if apiKey = "" then Except.error "API key not configured"
  else
    match provider ("Answer this question with just one word: " ++ question) with
    | ProviderReply.answered (ans :: _) => Except.ok (normalizeAnswer ans)
    | ProviderReply.answered [] => Except.error ("Service error: " ++ "No AI response")
    | ProviderReply.upstream status => Except.error ("API error: " ++ toString status)
    | ProviderReply.failed message => Except.error ("Service error: " ++ message)

/-! ## The request body and the response -/

/-- A parsed JSON value.  A number is a finite binary64 value, held as the
rational it denotes (a numeral too large for binary64 parses to `Infinity`,
which fails `Number.isInteger` like any fraction). -/
inductive Json where
  | null
  | bool (b : Bool)
  | num (x : ℚ)
  | str (s : String)
  | arr (items : List Json)
  | obj (members : List (String × Json))

/-- The JSON number whose value is the integer `n` (a request carries the
integers that binary64 represents). -/
def Json.ofInt (n : Int) : Json := Json.num (n : ℚ)

/-- The request body `req.body`: the own properties of the parsed JSON object,
each key once. -/
abbrev Payload := List (String × Json)

/-- The result of `Object.prototype.hasOwnProperty.call(data, key)`. -/
def hasOwnProperty (data : Payload) (key : String) : Bool :=
  (data.lookup key).isSome

/-- The value `data[key]` of an own key.  The handler reads a key only after
`hasOwnProperty` has found it. -/
def property (data : Payload) (key : String) : Json :=
  (data.lookup key).getD Json.null

/-- The test `Number.isInteger(v)`. -/
def isInteger : Json → Bool
  | Json.num x => x.isInt
  | _ => false

/-- The integer a number that passed `Number.isInteger` denotes. -/
def integerValue : Json → Int
  | Json.num x => x.num
  | _ => 0

/-- The JavaScript `length` of a string: its number of UTF-16 code units. -/
def jsLength (s : String) : Nat :=
  (s.data.map fun c => if c.toNat < 65536 then 1 else 2).sum

/-- The `data` member of a response. -/
inductive Data where
  | list (xs : List Int)
  | number (n : Int)
  | text (s : String)
  deriving DecidableEq

/-- The JSON object every response carries. -/
structure Envelope where
  is_success : Bool
  official_email : String
  data : Option Data
  error : Option String
  deriving DecidableEq

/-- An HTTP response: status code and body. -/
structure Response where
  status : Nat
  body : Envelope
  deriving DecidableEq

/-- The response `res.status(status).json({ is_success: false, official_email: email, error })`. -/
def failure (email : String) (status : Nat) (error : String) : Response :=
  { status := status
    body := { is_success := false, official_email := email, data := none, error := some error } }

/-- The response `res.json({ is_success: true, official_email: email, data })`,
sent with the default status 200. -/
def success (email : String) (data : Data) : Response :=
  { status := 200
    body := { is_success := true, official_email := email, data := some data, error := none } }

/-! ## The handler of `POST /bfhl` -/

/-- The test `typeof v === 'number'`. -/
def isNumber : Json → Bool
  | Json.num _ => true
  | _ => false

/-- The branch `// handle fibonacci` of the handler, for the value `n` of the key. -/
def handleFibonacci (email : String) (n : Json) : Response :=
  if !isNumber n || !isInteger n then failure email 400 "Fibonacci input must be an integer"
  else if integerValue n < 0 then failure email 400 "Input cannot be negative"
  else if integerValue n > 1000 then failure email 400 "Input too large"
  else success email (Data.list (getFibonacci (integerValue n)))

/-- The branch `// handle prime` of the handler, for the value `nums` of the key. -/
def handlePrime (email : String) (nums : Json) : Response :=
  match nums with
  | Json.arr items =>
    if items.length = 0 then failure email 400 "Array cannot be empty"
    else if items.length > 10000 then failure email 400 "Array too large"
    else if !items.all isInteger then failure email 400 "All elements must be integers"
    else success email (Data.list (getPrimes (items.map integerValue)))
  | _ => failure email 400 "Prime input must be an array"

/-- The branch `// handle lcm` of the handler, for the value `nums` of the key.
`none`: `calculateLCM` left the finite integers, and the response is not
modelled. -/
def handleLcm (email : String) (nums : Json) : Option Response :=
  match nums with
  | Json.arr items =>
    if items.length = 0 then some (failure email 400 "Array cannot be empty")
    else if items.length > 1000 then some (failure email 400 "Array too large")
    else if !items.all isInteger then some (failure email 400 "All elements must be integers")
    else if (items.map integerValue).any (fun n => n = 0) then
      some (failure email 400 "Cannot calculate LCM with zero")
    else (calculateLCM (items.map integerValue)).map fun result => success email (Data.number result)
  | _ => some (failure email 400 "LCM input must be an array")

/-- The branch `// handle hcf` of the handler, for the value `nums` of the key. -/
def handleHcf (email : String) (nums : Json) : Response :=
  match nums with
  | Json.arr items =>
    if items.length = 0 then failure email 400 "Array cannot be empty"
    else if items.length > 1000 then failure email 400 "Array too large"
    else if !items.all isInteger then failure email 400 "All elements must be integers"
    else success email (Data.number (getHCF (items.map integerValue)))
  | _ => failure email 400 "HCF input must be an array"

/-- The branch `// handle AI queries` of the handler, for the value `q` of the key. -/
def handleAI (email apiKey : String) (provider : String → ProviderReply) (q : Json) : Response :=
  match q with
  | Json.str s =>
    if (jsTrim s.data).isEmpty then failure email 400 "Question cannot be empty"
    else if jsLength s > 500 then failure email 400 "Question too long"
    else
      match askAI apiKey provider s with
      | Except.ok answer => success email (Data.text answer)
      | Except.error message => failure email 500 message
  | _ => failure email 400 "Question must be a string"

/-- The operation keys `ops` of the handler. -/
def ops : List String := ["fibonacci", "prime", "lcm", "hcf", "AI"]

/-- The handler `app.post('/bfhl', ...)` of `server.js`, for the body `data`,
the configured `email` and `apiKey`, and the behaviour `provider` of the remote
call.  `some r`: the response sent.  `none`: no response is modelled (the
handler ran past its last branch, or `calculateLCM` left the finite integers).

The handler calls `data.hasOwnProperty(op)`, which looks `hasOwnProperty` up on
`data` first.  When the body has an own key of that name, its JSON value
shadows the built-in method, the call throws a `TypeError` (a JSON value is not
a function), and the outer `catch` answers. -/
def postBfhl (email apiKey : String) (provider : String → ProviderReply) (data : Payload) :
    Option Response :=
  if hasOwnProperty data "hasOwnProperty" then some (failure email 500 "Something went wrong")
  else
    let requested := ops.filter fun op => hasOwnProperty data op
    if requested.length = 0 then some (failure email 400 "No operation specified")
    else if requested.length > 1 then
      some (failure email 400 "Only one operation allowed per request")
    else if hasOwnProperty data "fibonacci" then
      some (handleFibonacci email (property data "fibonacci"))
    else if hasOwnProperty data "prime" then some (handlePrime email (property data "prime"))
    else if hasOwnProperty data "lcm" then handleLcm email (property data "lcm")
    else if hasOwnProperty data "hcf" then some (handleHcf email (property data "hcf"))
    else if hasOwnProperty data "AI" then
      some (handleAI email apiKey provider (property data "AI"))
    else none

/-- The shape every response of the handler has: a success with status 200,
data and no error, or a failure with status 400 or 500, an error and no data;
the address is the configured one. -/
def WellFormed (email : String) (r : Response) : Prop :=
  r.body.official_email = email ∧
  ((r.status = 200 ∧ r.body.is_success = true ∧ r.body.data.isSome = true ∧ r.body.error = none) ∨
   ((r.status = 400 ∨ r.status = 500) ∧ r.body.is_success = false ∧ r.body.data = none ∧
      r.body.error.isSome = true))

/-! ## The calls of the remote provider -/

/-- The prompts `askAI(question)` passes to `axios.post`, in order: the call
is made once, and not at all when the API key is missing (the `throw` comes
first); `askAI` has no loop and no second call. -/
def askAICalls (apiKey question : String) : List String :=
  if apiKey = "" then [] else ["Answer this question with just one word: " ++ question]

/-- The prompts the branch `// handle AI queries` passes to `axios.post`: those
of `askAI(q)`, which is called after the three checks have passed. -/
def handleAICalls (apiKey : String) (q : Json) : List String :=
  match q with
  | Json.str s =>
    if (jsTrim s.data).isEmpty then []
    else if jsLength s > 500 then []
    else askAICalls apiKey s
  | _ => []

/-- The prompts the handler passes to `axios.post` for the body `data`: those
of the AI branch when the handler reaches it; no other branch calls `askAI`. -/
def postBfhlCalls (apiKey : String) (data : Payload) : List String :=
  if hasOwnProperty data "hasOwnProperty" then []
  else
    let requested := ops.filter fun op => hasOwnProperty data op
    if requested.length = 0 then []
    else if requested.length > 1 then []
    else if hasOwnProperty data "fibonacci" then []
    else if hasOwnProperty data "prime" then []
    else if hasOwnProperty data "lcm" then []
    else if hasOwnProperty data "hcf" then []
    else if hasOwnProperty data "AI" then handleAICalls apiKey (property data "AI")
    else []

/-! ## The loop of `getGCD` on all numbers

`getLCM` can pass `Infinity` to `getGCD` (the product of an earlier step that
overflowed).  The loop is modelled here on a number type that has `Infinity`
and `NaN`, as a run bounded by a number of iterations. -/

/-- A non-negative JavaScript number as `getGCD` holds it after `Math.abs`: an
integer, `Infinity` or `NaN`. -/
inductive JsNum where
  | finite (i : Int)
  | infinity
  | nan
  deriving DecidableEq

/-- The operator `%` on such numbers: `NaN` when the dividend is `Infinity` or
`NaN`, when the divisor is `NaN` or zero; the dividend itself when only the
divisor is `Infinity`. -/
def jsRemainder : JsNum → JsNum → JsNum
  | JsNum.finite a, JsNum.finite b => if b = 0 then JsNum.nan else JsNum.finite (jsMod a b)
  | JsNum.finite a, JsNum.infinity => JsNum.finite a
  | _, _ => JsNum.nan

/-- The loop `while (b !== 0) { let temp = b; b = a % b; a = temp; }` run for
at most `n` iterations after the current test: `some a` when the loop is left
within them, with the value `a` it returns, `none` when it is still running.
`NaN !== 0` and `Infinity !== 0` are true. -/
def gcdRun : Nat → JsNum → JsNum → Option JsNum
  | 0, a, b => if b = JsNum.finite 0 then some a else none
  | n + 1, a, b => if b = JsNum.finite 0 then some a else gcdRun n b (jsRemainder a b)

/-- The integer `JSON.parse("1e200")` yields: the binary64 value nearest to
`10 ^ 200`. -/
def oneE200 : Int := roundToDouble (10 ^ 200)

/-! # Theorems -/

/-! ## The number model -/

theorem excessBits_spec_aux (fuel m e : Nat) (h : m / 2 ^ (e + fuel) < 2 ^ 53) :
    m / 2 ^ excessBits fuel m e < 2 ^ 53 := by
  induction fuel generalizing e with
  | zero => simpa [excessBits] using h
  | succ fuel ih =>
    rw [excessBits]
    split_ifs with h1
    · exact h1
    · exact ih (e + 1) (by rwa [Nat.add_assoc, Nat.add_comm 1 fuel])

theorem excessBits_spec (m : Nat) : m / 2 ^ excessBits m m 0 < 2 ^ 53 := by
  apply excessBits_spec_aux
  rw [Nat.zero_add, Nat.div_eq_of_lt (Nat.lt_two_pow m)]
  exact Nat.two_pow_pos 53

/-! ## `getFibonacci`: length and exactness -/

theorem fibLoop_length (k i : Nat) (fib : List Int) :
    (fibLoop k i fib).length = fib.length + k := by
  induction k generalizing i fib with
  | zero => simp [fibLoop]
  | succ k ih => simp [fibLoop, ih]; omega

theorem getFibonacci_length (n : Int) (h : 0 ≤ n) : (getFibonacci n).length = n.toNat := by
  unfold getFibonacci
  split_ifs with h1 h2
  · have : n = 0 := by omega
    subst this; rfl
  · subst h2; rfl
  · rw [List.length_take, fibLoop_length]
    simp only [List.length_cons, List.length_nil]
    omega

theorem roundToDouble_exact (x : Int) (h : x.natAbs < 2 ^ 53) : roundToDouble x = x := by
  unfold roundToDouble
  exact if_pos h

theorem canonicalFib_le_succ (i : Nat) : canonicalFib i ≤ canonicalFib (i + 1) := by
  cases i with
  | zero => decide
  | succ j => simp [canonicalFib]

theorem canonicalFib_mono {i j : Nat} (h : i ≤ j) : canonicalFib i ≤ canonicalFib j :=
  monotone_nat_of_le_succ canonicalFib_le_succ h

set_option maxRecDepth 100000 in
theorem canonicalFib_lt_of_le_78 (i : Nat) (h : i ≤ 78) : canonicalFib i < 2 ^ 53 :=
  lt_of_le_of_lt (canonicalFib_mono h) (by decide)

theorem canonicalPrefix_succ (i : Nat) :
    canonicalPrefix (i + 1) = canonicalPrefix i ++ [(canonicalFib i : Int)] := by
  simp [canonicalPrefix, List.range_succ]

theorem canonicalPrefix_getD (i j : Nat) (h : j < i) :
    (canonicalPrefix i).getD j 0 = (canonicalFib j : Int) := by
  simp [canonicalPrefix, List.getD_eq_getElem?_getD, List.getElem?_map, List.getElem?_range h]

theorem fibLoop_exact (k i : Nat) (hi : 2 ≤ i) (hk : i + k ≤ 79) :
    fibLoop k i (canonicalPrefix i) = canonicalPrefix (i + k) := by
  induction k generalizing i with
  | zero => simp [fibLoop]
  | succ k ih =>
    have h1 : (canonicalPrefix i).getD (i - 1) 0 = (canonicalFib (i - 1) : Int) :=
      canonicalPrefix_getD i (i - 1) (by omega)
    have h2 : (canonicalPrefix i).getD (i - 2) 0 = (canonicalFib (i - 2) : Int) :=
      canonicalPrefix_getD i (i - 2) (by omega)
    have h3 : canonicalFib i = canonicalFib (i - 1) + canonicalFib (i - 2) := by
      obtain ⟨j, rfl⟩ : ∃ j, i = j + 2 := ⟨i - 2, by omega⟩
      simp [canonicalFib]
    have h4 : jsAdd (canonicalFib (i - 1) : Int) (canonicalFib (i - 2) : Int)
        = (canonicalFib i : Int) := by
      unfold jsAdd
      rw [roundToDouble_exact]
      · rw [h3]; push_cast; rfl
      · have := canonicalFib_lt_of_le_78 i (by omega)
        rw [h3] at this
        have e : ((canonicalFib (i - 1) : Int) + (canonicalFib (i - 2) : Int)).natAbs
            = canonicalFib (i - 1) + canonicalFib (i - 2) := by
          rw [← Int.natCast_add, Int.natAbs_ofNat]
        rw [e]; exact this
    rw [fibLoop, h1, h2, h4, ← canonicalPrefix_succ, ih (i + 1) (by omega) (by omega)]
    congr 1; omega

theorem getFibonacci_exact (n : Nat) (h : n ≤ 79) :
    getFibonacci n = canonicalPrefix n := by
  unfold getFibonacci
  split_ifs with h1 h2
  · have : n = 0 := by omega
    subst this; rfl
  · have : n = 1 := by omega
    subst this; rfl
  · have h3 : 2 ≤ n := by omega
    have h4 : ([0, 1] : List Int) = canonicalPrefix 2 := by decide
    rw [h4, fibLoop_exact _ 2 (le_refl 2) (by simp; omega)]
    have h5 : 2 + ((n : Int).toNat - 2) = n := by simp; omega
    rw [h5]
    simp [canonicalPrefix]

set_option maxRecDepth 100000 in
theorem getFibonacci_80_last : (getFibonacci 80).getD 79 0 = 14472334024676220 := by decide

set_option maxRecDepth 100000 in
theorem canonicalFib_79 : (canonicalFib 79 : Int) = 14472334024676221 := by decide

/-- C1 (the code departs from the claim).  `getFibonacci(80)` has 80 entries, but
its entry at index 79 is 14472334024676220 while the Fibonacci number `F(79)` is
14472334024676221: the sum `fib[78] + fib[77]` exceeds `2 ^ 53` and is rounded.
What does hold: for every integer `n >= 0` the result has length `n`; for every
`n <= 79` the entry at each index `i < n` is exactly `F(i)`; and `n = 0, 1, 2, 5`
give `[]`, `[0]`, `[0, 1]`, `[0, 1, 1, 2, 3]`. -/
theorem getFibonacci_rounds_from_80 :
    (getFibonacci 80).length = 80 ∧
    (getFibonacci 80).getD 79 0 = 14472334024676220 ∧
    (canonicalFib 79 : Int) = 14472334024676221 ∧
    (∀ n : Int, 0 ≤ n → (getFibonacci n).length = n.toNat) ∧
    (∀ n i : Nat, n ≤ 79 → i < n → (getFibonacci n).getD i 0 = (canonicalFib i : Int)) ∧
    getFibonacci 0 = [] ∧ getFibonacci 1 = [0] ∧ getFibonacci 2 = [0, 1] ∧
    getFibonacci 5 = [0, 1, 1, 2, 3] := by
  refine ⟨getFibonacci_length 80 (by decide), getFibonacci_80_last, canonicalFib_79,
    getFibonacci_length,
    ?_, by decide, by decide, by decide, by decide⟩
  intro n i hn hi
  rw [getFibonacci_exact n hn, canonicalPrefix_getD n i hi]

/-! ## `checkPrime` -/

theorem jsMod_eq_zero_iff (n i : Nat) : jsMod (n : Int) (i : Int) = 0 ↔ i ∣ n := by
  unfold jsMod
  rw [← Int.dvd_iff_tmod_eq_zero]
  exact Int.natCast_dvd_natCast

theorem checkPrimeLoop_iff (n sq i : Nat) :
    checkPrimeLoop (n : Int) sq i = true ↔ ∀ k : Nat, i + 2 * k ≤ sq → ¬ (i + 2 * k) ∣ n := by
  refine checkPrimeLoop.induct (n : Int) sq
    (fun i => checkPrimeLoop (n : Int) sq i = true ↔ ∀ k : Nat, i + 2 * k ≤ sq → ¬ (i + 2 * k) ∣ n)
    ?_ ?_ ?_ i
  · intro x hx hmod
    rw [checkPrimeLoop, if_pos hx, if_pos hmod]
    simp only [Bool.false_eq_true, false_iff, not_forall]
    exact ⟨0, by simpa using hx, by simpa using (jsMod_eq_zero_iff n x).1 hmod⟩
  · intro x hx hmod ih
    rw [checkPrimeLoop, if_pos hx, if_neg hmod, ih]
    constructor
    · intro h k hk
      cases k with
      | zero => simpa using fun hd => hmod ((jsMod_eq_zero_iff n x).2 hd)
      | succ k =>
        have := h k (by omega)
        have e : x + 2 * (k + 1) = x + 2 + 2 * k := by ring
        rw [e]; exact this
    · intro h k hk
      have := h (k + 1) (by omega)
      have e : x + 2 * (k + 1) = x + 2 + 2 * k := by ring
      rw [e] at this; exact this
  · intro x hx
    rw [checkPrimeLoop, if_neg hx]
    simp only [true_iff]
    intro k hk
    omega

theorem checkPrime_natCast (n : Nat) : checkPrime (n : Int) = true ↔ Nat.Prime n := by
  unfold checkPrime
  by_cases h1 : (n : Int) ≤ 1
  · rw [if_pos h1]
    have : n ≤ 1 := by exact_mod_cast h1
    simp only [Bool.false_eq_true, false_iff]
    intro hp
    have := hp.two_le
    omega
  rw [if_neg h1]
  by_cases h2 : (n : Int) = 2
  · rw [if_pos h2]
    have : n = 2 := by exact_mod_cast h2
    subst this
    simp [Nat.prime_two]
  rw [if_neg h2]
  have hn1 : 1 < n := by
    have : ¬ (n ≤ 1) := fun h => h1 (by exact_mod_cast h)
    omega
  have hn2 : n ≠ 2 := fun h => h2 (by exact_mod_cast h)
  by_cases h3 : jsMod (n : Int) 2 = 0
  · rw [if_pos h3]
    have hd : 2 ∣ n := (jsMod_eq_zero_iff n 2).1 (by exact_mod_cast h3)
    simp only [Bool.false_eq_true, false_iff]
    intro hp
    rcases (Nat.dvd_prime hp).1 hd with h | h <;> omega
  rw [if_neg h3, Int.toNat_natCast, checkPrimeLoop_iff, Nat.prime_def_le_sqrt]
  have hodd : ¬ 2 ∣ n := fun hd => h3 (by exact_mod_cast (jsMod_eq_zero_iff n 2).2 hd)
  constructor
  · intro h
    refine ⟨by omega, fun m hm hms hmd => ?_⟩
    have hmodd : ¬ 2 ∣ m := fun h2m => hodd (dvd_trans h2m hmd)
    obtain ⟨k, rfl⟩ : ∃ k, m = 3 + 2 * k := ⟨(m - 3) / 2, by omega⟩
    exact h k hms hmd
  · rintro ⟨_, h⟩ k hk
    exact h (3 + 2 * k) (by omega) hk

theorem isPrimeNumber_iff (num : Int) : IsPrimeNumber num ↔ Nat.Prime num.toNat := by
  unfold IsPrimeNumber
  rw [Nat.prime_def_lt']
  constructor
  · rintro ⟨h2, h⟩
    refine ⟨by omega, fun m hm hlt hd => ?_⟩
    refine h (m : Int) (by omega) (by omega) ?_
    have : ((m : Int)) ∣ ((num.toNat : Nat) : Int) := Int.natCast_dvd_natCast.2 hd
    rwa [Int.toNat_of_nonneg (by omega)] at this
  · rintro ⟨h2, h⟩
    have hnum : 2 ≤ num := by omega
    refine ⟨hnum, fun d hd1 hd2 hdvd => ?_⟩
    refine h d.toNat (by omega) (by omega) ?_
    have e1 : ((d.toNat : Nat) : Int) = d := Int.toNat_of_nonneg (by omega)
    have e2 : ((num.toNat : Nat) : Int) = num := Int.toNat_of_nonneg (by omega)
    apply Int.natCast_dvd_natCast.1
    rw [e1, e2]; exact hdvd

theorem checkPrime_eq_true_iff (num : Int) : checkPrime num = true ↔ Nat.Prime num.toNat := by
  by_cases h : 0 ≤ num
  · have e : ((num.toNat : Nat) : Int) = num := Int.toNat_of_nonneg h
    conv_lhs => rw [← e]
    exact checkPrime_natCast num.toNat
  · have h1 : num ≤ 1 := by omega
    have h2 : num.toNat = 0 := by omega
    unfold checkPrime
    rw [if_pos h1, h2]
    simp [Nat.not_prime_zero]

theorem checkPrime_iff_isPrimeNumber (num : Int) : checkPrime num = true ↔ IsPrimeNumber num := by
  rw [checkPrime_eq_true_iff, isPrimeNumber_iff]

theorem checkPrime_eq_false_iff (num : Int) : checkPrime num = false ↔ ¬ IsPrimeNumber num := by
  rw [← checkPrime_iff_isPrimeNumber]; simp

theorem checkPrimeLoop_sqrt_slack (n sq : Nat) (h2 : 2 < n) (hodd : ¬ 2 ∣ n)
    (hlo : Nat.sqrt n ≤ sq) (hhi : sq < n) :
    checkPrimeLoop (n : Int) sq 3 = checkPrimeLoop (n : Int) (Nat.sqrt n) 3 := by
  have key : ∀ s, Nat.sqrt n ≤ s → s < n → (checkPrimeLoop (n : Int) s 3 = true ↔ Nat.Prime n) := by
    intro s hs1 hs2
    rw [checkPrimeLoop_iff]
    constructor
    · intro h
      rw [Nat.prime_def_le_sqrt]
      refine ⟨by omega, fun m hm hms hmd => ?_⟩
      have hmodd : ¬ 2 ∣ m := fun h2m => hodd (dvd_trans h2m hmd)
      obtain ⟨k, rfl⟩ : ∃ k, m = 3 + 2 * k := ⟨(m - 3) / 2, by omega⟩
      exact h k (le_trans hms hs1) hmd
    · intro hp k hk hd
      rcases (Nat.dvd_prime hp).1 hd with h | h <;> omega
  have a := key sq hlo hhi
  have b := key (Nat.sqrt n) (le_refl _) (Nat.sqrt_lt_self (by omega))
  cases h1 : checkPrimeLoop (n : Int) sq 3 <;> cases h3 : checkPrimeLoop (n : Int) (Nat.sqrt n) 3 <;>
    simp_all

theorem checkPrime_eval_true (n : Nat) (h : Nat.Prime n) : checkPrime (n : Int) = true :=
  (checkPrime_natCast n).2 h

theorem checkPrime_eval_false (n : Nat) (h : ¬ Nat.Prime n) : checkPrime (n : Int) = false := by
  rw [← Bool.not_eq_true, checkPrime_natCast]; exact h

/-- C2.  `checkPrime(num)` returns true exactly when `num` is prime (`num >= 2`
with no divisor `d`, `1 < d < num`), for every integer `num`.  In particular it
returns false for every `num <= 1`, true for 2, false for every even `num > 2`,
and false for every odd composite `num` (so for 9, 25 and 49). -/
theorem checkPrime_correct :
    (∀ num : Int, checkPrime num = true ↔ (2 ≤ num ∧ ∀ d : Int, 1 < d → d < num → ¬ d ∣ num)) ∧
    (∀ num : Int, num ≤ 1 → checkPrime num = false) ∧
    checkPrime 2 = true ∧
    (∀ num : Int, 2 < num → 2 ∣ num → checkPrime num = false) ∧
    (∀ num d : Int, ¬ 2 ∣ num → 1 < d → d < num → d ∣ num → checkPrime num = false) ∧
    checkPrime 9 = false ∧ checkPrime 25 = false ∧ checkPrime 49 = false := by
  refine ⟨checkPrime_iff_isPrimeNumber, ?_, ?_, ?_, ?_, ?_, ?_, ?_⟩
  · intro num h
    rw [checkPrime_eq_false_iff]
    rintro ⟨h2, _⟩
    omega
  · exact checkPrime_eval_true 2 Nat.prime_two
  · intro num h2 hd
    rw [checkPrime_eq_false_iff]
    rintro ⟨_, h⟩
    exact h 2 (by norm_num) h2 hd
  · intro num d _ h1 h2 hd
    rw [checkPrime_eq_false_iff]
    rintro ⟨_, h⟩
    exact h d h1 h2 hd
  · exact checkPrime_eval_false 9 (by norm_num)
  · exact checkPrime_eval_false 25 (by norm_num)
  · exact checkPrime_eval_false 49 (by norm_num)

/-! ## `getPrimes` -/

theorem mem_getPrimes (seq : List Int) (x : Int) :
    x ∈ getPrimes seq ↔ x ∈ seq ∧ IsPrimeNumber x := by
  unfold getPrimes
  rw [List.mem_filter, checkPrime_iff_isPrimeNumber]

theorem getPrimes_example : getPrimes [2, 3, 4, 5, 9] = [2, 3, 5] := by
  have h2 := checkPrime_eval_true 2 (by norm_num)
  have h3 := checkPrime_eval_true 3 (by norm_num)
  have h4 := checkPrime_eval_false 4 (by norm_num)
  have h5 := checkPrime_eval_true 5 (by norm_num)
  have h9 := checkPrime_eval_false 9 (by norm_num)
  simp only [Nat.cast_ofNat] at h2 h3 h4 h5 h9
  simp [getPrimes, List.filter, h2, h3, h4, h5, h9]

/-- C3.  `getPrimes(seq)` is the order-preserving filter of `seq` by primality:
it is a sublist of `seq`; its members are exactly the prime members of `seq`, so
every element of it is prime and no non-prime element of `seq` appears in it;
every prime occurs in it as many times as in `seq` and every non-prime zero
times; and `[2, 3, 4, 5, 9]` gives `[2, 3, 5]`. -/
theorem getPrimes_filters_primes :
    (∀ seq : List Int,
      (getPrimes seq).Sublist seq ∧
      (∀ x : Int, x ∈ getPrimes seq ↔ x ∈ seq ∧ IsPrimeNumber x) ∧
      (∀ x : Int, x ∈ getPrimes seq → IsPrimeNumber x) ∧
      (∀ x : Int, x ∈ seq → ¬ IsPrimeNumber x → x ∉ getPrimes seq) ∧
      (∀ p : Int, IsPrimeNumber p → (getPrimes seq).count p = seq.count p) ∧
      (∀ x : Int, ¬ IsPrimeNumber x → (getPrimes seq).count x = 0)) ∧
    (∀ a b : List Int, getPrimes (a ++ b) = getPrimes a ++ getPrimes b) ∧
    getPrimes [2, 3, 4, 5, 9] = [2, 3, 5] := by
  refine ⟨fun seq => ⟨List.filter_sublist seq, mem_getPrimes seq, ?_, ?_, ?_, ?_⟩, ?_,
    getPrimes_example⟩
  · intro x hx
    exact ((mem_getPrimes seq x).1 hx).2
  · intro x _ hnp hx
    exact hnp ((mem_getPrimes seq x).1 hx).2
  · intro p hp
    unfold getPrimes
    rw [List.count_filter]
    exact (checkPrime_iff_isPrimeNumber p).2 hp
  · intro x hnp
    rw [List.count_eq_zero]
    intro hx
    exact hnp ((mem_getPrimes seq x).1 hx).2
  · intro a b
    simp [getPrimes]


/-! ## `getGCD` and `getHCF` -/

theorem natAbs_tmod (a b : Int) : (a.tmod b).natAbs = a.natAbs % b.natAbs := by
  cases a <;> cases b <;> simp [Int.tmod] <;> norm_cast

theorem getGCDLoop_eq (a b : Int) (ha : 0 ≤ a) (hb : 0 ≤ b) :
    getGCDLoop a b = (Int.gcd a b : Int) := by
  refine getGCDLoop.induct
    (fun a b => 0 ≤ a → 0 ≤ b → getGCDLoop a b = (Int.gcd a b : Int)) ?_ ?_ a b ha hb
  · intro a ha _
    rw [getGCDLoop, if_pos rfl, Int.gcd_zero_right, Int.natAbs_of_nonneg ha]
  · intro a b hb0 ih ha hb
    rw [getGCDLoop, if_neg hb0, ih hb (Int.tmod_nonneg b ha)]
    congr 1
    unfold jsMod
    rw [Int.gcd_def, Int.gcd_def, natAbs_tmod, Nat.gcd_comm, ← Nat.gcd_rec, Nat.gcd_comm]

theorem mathAbs_eq (a : Int) : mathAbs a = (a.natAbs : Int) := by
  unfold mathAbs
  split_ifs with h <;> omega

theorem getGCD_eq (a b : Int) : getGCD a b = (Int.gcd a b : Int) := by
  unfold getGCD
  rw [getGCDLoop_eq _ _ (by rw [mathAbs_eq]; omega) (by rw [mathAbs_eq]; omega)]
  rw [mathAbs_eq, mathAbs_eq]
  simp [Int.gcd_def, Int.natAbs_abs]

theorem getHCFLoop_eq_plain (res : Int) (rest : List Int) :
    getHCFLoop res rest = plainHCFLoop res rest := by
  induction rest generalizing res with
  | nil => rfl
  | cons x rest ih =>
    rw [getHCFLoop, plainHCFLoop]
    split_ifs with h
    · rw [h]
      clear ih h
      induction rest with
      | nil => rfl
      | cons y rest ih2 =>
        rw [plainHCFLoop]
        have : getGCD 1 y = 1 := by rw [getGCD_eq]; simp
        rw [this]; exact ih2
    · exact ih _

theorem plainHCFLoop_eq (g : Nat) (rest : List Int) :
    plainHCFLoop (g : Int) rest = ((rest.foldl (fun acc x => Nat.gcd acc x.natAbs) g : Nat) : Int) := by
  induction rest generalizing g with
  | nil => rfl
  | cons x rest ih =>
    rw [plainHCFLoop, getGCD_eq, ih]
    simp [Int.gcd_def]

theorem plainHCFLoop_natAbs (res : Int) (x : Int) (rest : List Int) :
    plainHCFLoop res (x :: rest) = plainHCFLoop (res.natAbs : Int) (x :: rest) := by
  rw [plainHCFLoop, plainHCFLoop, getGCD_eq, getGCD_eq]
  simp [Int.gcd_def, Int.natAbs_abs]

theorem getHCF_eq_listGcd (x : Int) (rest : List Int) :
    getHCF (x :: rest) = (listGcd (x :: rest) : Int) := by
  cases rest with
  | nil => simp [getHCF, listGcd, mathAbs_eq]
  | cons y rest =>
    show getHCFLoop x (y :: rest) = _
    rw [getHCFLoop_eq_plain, plainHCFLoop_natAbs, plainHCFLoop_eq]
    simp [listGcd]

theorem foldl_gcd_dvd_init (l : List Int) (g : Nat) :
    l.foldl (fun acc x => Nat.gcd acc x.natAbs) g ∣ g := by
  induction l generalizing g with
  | nil => exact dvd_refl _
  | cons x l ih => exact dvd_trans (ih _) (Nat.gcd_dvd_left _ _)

theorem foldl_gcd_dvd_mem (l : List Int) (g : Nat) (x : Int) (hx : x ∈ l) :
    l.foldl (fun acc x => Nat.gcd acc x.natAbs) g ∣ x.natAbs := by
  induction l generalizing g with
  | nil => cases hx
  | cons y l ih =>
    rcases List.mem_cons.1 hx with h | h
    · subst h
      exact dvd_trans (foldl_gcd_dvd_init l _) (Nat.gcd_dvd_right _ _)
    · exact ih _ h

theorem dvd_foldl_gcd (l : List Int) (g d : Nat) (hg : d ∣ g) (hl : ∀ x ∈ l, d ∣ x.natAbs) :
    d ∣ l.foldl (fun acc x => Nat.gcd acc x.natAbs) g := by
  induction l generalizing g with
  | nil => exact hg
  | cons y l ih =>
    exact ih _ (Nat.dvd_gcd hg (hl y (List.mem_cons_self _ _)))
      (fun x hx => hl x (List.mem_cons_of_mem _ hx))

theorem listGcd_dvd (l : List Int) (x : Int) (hx : x ∈ l) : (listGcd l : Int) ∣ x :=
  Int.natCast_dvd.2 (foldl_gcd_dvd_mem l 0 x hx)

theorem dvd_listGcd (l : List Int) (d : Int) (h : ∀ x ∈ l, d ∣ x) : d ∣ (listGcd l : Int) := by
  rw [Int.dvd_natCast]
  exact dvd_foldl_gcd l 0 d.natAbs (dvd_zero _) (fun x hx => Int.natAbs_dvd_natAbs.2 (h x hx))

theorem getHCF_eq_plainHCF (numbers : List Int) : getHCF numbers = plainHCF numbers := by
  match numbers with
  | [] => rfl
  | [x] => rfl
  | x :: y :: rest => exact getHCFLoop_eq_plain x (y :: rest)

theorem getHCF_pair (a b : Int) : getHCF [a, b] = (Int.gcd a b : Int) := by
  rw [getHCF_eq_listGcd]
  simp [listGcd, Int.gcd_def]

/-- C5.  For every non-empty list of integers, `getHCF` returns the greatest
common divisor of the elements: a value `g >= 0` that divides every element and
that every common divisor of the elements divides.  The early `return 1` never
changes the value: `getHCF` equals the plain left fold `plainHCF`.  Also
`getHCF([a]) = |a|`, `getHCF([a, b]) = getHCF([b, a])`, and `[12, 18, 24]`
gives 6. -/
theorem getHCF_is_gcd :
    (∀ (x : Int) (rest : List Int),
      0 ≤ getHCF (x :: rest) ∧
      (∀ y : Int, y ∈ x :: rest → getHCF (x :: rest) ∣ y) ∧
      (∀ d : Int, (∀ y : Int, y ∈ x :: rest → d ∣ y) → d ∣ getHCF (x :: rest)) ∧
      getHCF (x :: rest) = plainHCF (x :: rest)) ∧
    (∀ a : Int, getHCF [a] = |a|) ∧
    (∀ a b : Int, getHCF [a, b] = getHCF [b, a]) ∧
    getHCF [12, 18, 24] = 6 := by
  refine ⟨fun x rest => ⟨?_, ?_, ?_, getHCF_eq_plainHCF _⟩, ?_, ?_, ?_⟩
  · rw [getHCF_eq_listGcd]; exact Int.natCast_nonneg _
  · intro y hy
    rw [getHCF_eq_listGcd]; exact listGcd_dvd _ y hy
  · intro d hd
    rw [getHCF_eq_listGcd]; exact dvd_listGcd _ d hd
  · intro a
    show mathAbs a = |a|
    rw [mathAbs_eq, Int.natCast_natAbs]
  · intro a b
    rw [getHCF_pair, getHCF_pair, Int.gcd_comm]
  · rw [getHCF_eq_listGcd]; decide


/-! ## `getLCM` and `calculateLCM` -/

theorem jsMul_exact (m n : Nat) (h : m * n < 2 ^ 53) :
    jsMul (m : Int) (n : Int) = some ((m * n : Nat) : Int) := by
  unfold jsMul
  have e : ((m : Int) * (n : Int)).natAbs = m * n := by
    rw [← Int.natCast_mul, Int.natAbs_ofNat]
  have hr : roundToDouble ((m : Int) * (n : Int)) = (m : Int) * (n : Int) :=
    roundToDouble_exact _ (by rw [e]; exact h)
  simp only [hr, e]
  have h2 : m * n < 2 ^ 1024 := lt_trans h (by norm_num)
  rw [if_pos h2]
  push_cast; rfl

theorem getLCM_exact (a b : Int) (ha : a ≠ 0) (hb : b ≠ 0)
    (h : a.natAbs * b.natAbs < 2 ^ 53) :
    getLCM a b = some ((Nat.lcm a.natAbs b.natAbs : Nat) : Int) := by
  unfold getLCM
  simp only [mathAbs_eq]
  have ha1 : ¬ ((a.natAbs : Int) = 0 ∨ (b.natAbs : Int) = 0) := by
    simp [ha, hb]
  rw [if_neg ha1, jsMul_exact _ _ h, getGCD_eq]
  show jsDiv _ _ = _
  unfold jsDiv
  have hg : Nat.gcd a.natAbs b.natAbs ≠ 0 := by
    intro h0
    exact ha (Int.natAbs_eq_zero.1 (Nat.eq_zero_of_gcd_eq_zero_left h0))
  have hdvd : Nat.gcd a.natAbs b.natAbs ∣ a.natAbs * b.natAbs :=
    dvd_trans (Nat.gcd_dvd_left _ _) (dvd_mul_right _ _)
  have e1 : Int.gcd (a.natAbs : Int) (b.natAbs : Int) = Nat.gcd a.natAbs b.natAbs := by
    simp [Int.gcd_def, Int.natAbs_abs]
  rw [e1]
  have c1 : ((Nat.gcd a.natAbs b.natAbs : Nat) : Int) ≠ 0 := by exact_mod_cast hg
  have c2 : ((a.natAbs * b.natAbs : Nat) : Int) % ((Nat.gcd a.natAbs b.natAbs : Nat) : Int) = 0 := by
    exact Int.emod_eq_zero_of_dvd (Int.natCast_dvd_natCast.2 hdvd)
  rw [if_pos ⟨c1, c2⟩]
  congr 1

theorem one_le_magnitudeProduct (l : List Int) (h : ∀ y ∈ l, y ≠ 0) : 1 ≤ magnitudeProduct l := by
  induction l with
  | nil => simp [magnitudeProduct]
  | cons x l ih =>
    have hx : 1 ≤ x.natAbs := Int.natAbs_pos.2 (h x (List.mem_cons_self _ _))
    have hl := ih (fun y hy => h y (List.mem_cons_of_mem _ hy))
    simp only [magnitudeProduct, List.map_cons, List.prod_cons] at *
    exact Nat.one_le_iff_ne_zero.2 (Nat.mul_ne_zero (by omega) (by omega))

theorem calculateLCMLoop_exact (rest : List Int) (n : Nat) (hn : n ≠ 0)
    (h0 : ∀ y ∈ rest, y ≠ 0) (hb : n * magnitudeProduct rest < 2 ^ 53) :
    calculateLCMLoop (n : Int) rest
      = some ((rest.foldl (fun acc y => Nat.lcm acc y.natAbs) n : Nat) : Int) := by
  induction rest generalizing n with
  | nil => rfl
  | cons x rest ih =>
    have hx : x ≠ 0 := h0 x (List.mem_cons_self _ _)
    have hrest : ∀ y ∈ rest, y ≠ 0 := fun y hy => h0 y (List.mem_cons_of_mem _ hy)
    have hp : 1 ≤ magnitudeProduct rest := one_le_magnitudeProduct rest hrest
    have hb1 : n * (x.natAbs * magnitudeProduct rest) < 2 ^ 53 := by
      simpa [magnitudeProduct] using hb
    have hstep : n * x.natAbs < 2 ^ 53 := by
      calc n * x.natAbs = n * (x.natAbs * 1) := by ring
        _ ≤ n * (x.natAbs * magnitudeProduct rest) :=
          Nat.mul_le_mul_left _ (Nat.mul_le_mul_left _ hp)
        _ < 2 ^ 53 := hb1
    have hn0 : (n : Int) ≠ 0 := by exact_mod_cast hn
    have hl : getLCM (n : Int) x = some ((Nat.lcm n x.natAbs : Nat) : Int) := by
      have := getLCM_exact (n : Int) x hn0 hx (by simpa using hstep)
      simpa using this
    have hlcm0 : Nat.lcm n x.natAbs ≠ 0 := Nat.lcm_ne_zero hn (Int.natAbs_ne_zero.2 hx)
    have hle : Nat.lcm n x.natAbs ≤ n * x.natAbs :=
      Nat.le_of_dvd (Nat.pos_of_ne_zero (Nat.mul_ne_zero hn (Int.natAbs_ne_zero.2 hx)))
        (Nat.lcm_dvd (dvd_mul_right _ _) (dvd_mul_left _ _))
    have hb2 : Nat.lcm n x.natAbs * magnitudeProduct rest < 2 ^ 53 := by
      calc Nat.lcm n x.natAbs * magnitudeProduct rest
          ≤ n * x.natAbs * magnitudeProduct rest := Nat.mul_le_mul_right _ hle
        _ = n * (x.natAbs * magnitudeProduct rest) := by ring
        _ < 2 ^ 53 := hb1
    rw [calculateLCMLoop, hl]
    show calculateLCMLoop _ rest = _
    rw [ih _ hlcm0 hrest hb2]
    rfl

theorem foldl_lcm_init_dvd (l : List Int) (n : Nat) :
    n ∣ l.foldl (fun acc y => Nat.lcm acc y.natAbs) n := by
  induction l generalizing n with
  | nil => exact dvd_refl _
  | cons x l ih => exact dvd_trans (Nat.dvd_lcm_left _ _) (ih _)

theorem foldl_lcm_mem_dvd (l : List Int) (n : Nat) (x : Int) (hx : x ∈ l) :
    x.natAbs ∣ l.foldl (fun acc y => Nat.lcm acc y.natAbs) n := by
  induction l generalizing n with
  | nil => cases hx
  | cons y l ih =>
    rcases List.mem_cons.1 hx with h | h
    · subst h
      exact dvd_trans (Nat.dvd_lcm_right _ _) (foldl_lcm_init_dvd l _)
    · exact ih _ h

theorem foldl_lcm_dvd (l : List Int) (n c : Nat) (hn : n ∣ c) (hl : ∀ x ∈ l, x.natAbs ∣ c) :
    l.foldl (fun acc y => Nat.lcm acc y.natAbs) n ∣ c := by
  induction l generalizing n with
  | nil => exact hn
  | cons y l ih =>
    exact ih _ (Nat.lcm_dvd hn (hl y (List.mem_cons_self _ _)))
      (fun x hx => hl x (List.mem_cons_of_mem _ hx))

theorem foldl_lcm_ne_zero (l : List Int) (n : Nat) (hn : n ≠ 0) (hl : ∀ x ∈ l, x ≠ 0) :
    l.foldl (fun acc y => Nat.lcm acc y.natAbs) n ≠ 0 := by
  induction l generalizing n with
  | nil => exact hn
  | cons y l ih =>
    exact ih _ (Nat.lcm_ne_zero hn (Int.natAbs_ne_zero.2 (hl y (List.mem_cons_self _ _))))
      (fun x hx => hl x (List.mem_cons_of_mem _ hx))

theorem specLcmFold_cons (x : Int) (rest : List Int) :
    specLcmFold (x :: rest) = rest.foldl (fun acc y => Nat.lcm acc y.natAbs) x.natAbs := by
  rfl

theorem calculateLCM_exact (x : Int) (rest : List Int) (h0 : ∀ y ∈ x :: rest, y ≠ 0)
    (hb : magnitudeProduct (x :: rest) < 2 ^ 53) :
    calculateLCM (x :: rest) = some ((specLcmFold (x :: rest) : Nat) : Int) := by
  have hx : x ≠ 0 := h0 x (List.mem_cons_self _ _)
  have hrest : ∀ y ∈ rest, y ≠ 0 := fun y hy => h0 y (List.mem_cons_of_mem _ hy)
  rw [specLcmFold_cons]
  cases rest with
  | nil => simp [calculateLCM, mathAbs_eq]
  | cons y rest =>
    show calculateLCMLoop x (y :: rest) = _
    have hb1 : x.natAbs * magnitudeProduct (y :: rest) < 2 ^ 53 := by
      simpa [magnitudeProduct] using hb
    have key := calculateLCMLoop_exact (y :: rest) x.natAbs (Int.natAbs_ne_zero.2 hx) hrest hb1
    rw [← key]
    rw [calculateLCMLoop, calculateLCMLoop]
    have e : getLCM x y = getLCM (x.natAbs : Int) y := by
      unfold getLCM
      simp [mathAbs_eq, Int.natAbs_abs]
    rw [e]

theorem getLCM_unfold (a b : Int) :
    getLCM a b = if a = 0 ∨ b = 0 then some 0
      else (jsMul |a| |b|).bind fun p => jsDiv p (Int.gcd a b : Int) := by
  unfold getLCM
  simp only [mathAbs_eq, getGCD_eq, Int.natCast_natAbs]
  have e : Int.gcd |a| |b| = Int.gcd a b := by simp [Int.gcd_def, Int.natAbs_abs]
  rw [e]
  simp only [abs_eq_zero]

set_option exponentiation.threshold 2000 in
set_option maxRecDepth 100000 in
theorem calculateLCM_large_example :
    calculateLCM [3, 9007199254740991] = some 27021597764222972 := by
  show (getLCM 3 9007199254740991).bind (fun res1 => calculateLCMLoop res1 []) = _
  rw [getLCM_unfold]
  decide

theorem calculateLCM_pair_identity (a b : Int) (ha : a ≠ 0) (hb : b ≠ 0)
    (h : a.natAbs * b.natAbs < 2 ^ 53) :
    ∃ m : Int, calculateLCM [a, b] = some m ∧ m * getGCD a b = |a * b| := by
  refine ⟨((Nat.lcm a.natAbs b.natAbs : Nat) : Int), ?_, ?_⟩
  · show (getLCM a b).bind (fun res1 => calculateLCMLoop res1 []) = _
    rw [getLCM_exact a b ha hb h]
    rfl
  · rw [getGCD_eq, Int.gcd_def, ← Int.natCast_mul, mul_comm, Nat.gcd_mul_lcm, Int.natCast_mul,
      Int.natCast_natAbs, Int.natCast_natAbs, abs_mul]

/-- C4 (the code departs from the claim).  `calculateLCM([3, 9007199254740991])`
returns 27021597764222972, which 3 does not divide: the product
`3 * 9007199254740991` exceeds `2 ^ 53` and is rounded before the division.
What does hold: for every non-empty list of non-zero integers whose magnitudes
have a product below `2 ^ 53`, `calculateLCM` returns the least common multiple
(a positive integer that every element divides and that divides every common
multiple), equal to the specification's fold from `|first element|`; `[a]`
gives `|a|`; for non-zero `a`, `b` with `|a * b| < 2 ^ 53`,
`calculateLCM([a, b]) * getGCD(a, b) = |a * b|`; and `[4, 6]` gives 12. -/
theorem calculateLCM_rounds_large_products :
    calculateLCM [3, 9007199254740991] = some 27021597764222972 ∧
    ¬ (3 : Int) ∣ 27021597764222972 ∧
    (∀ (x : Int) (rest : List Int), (∀ y : Int, y ∈ x :: rest → y ≠ 0) →
      magnitudeProduct (x :: rest) < 2 ^ 53 →
      ∃ m : Int, calculateLCM (x :: rest) = some m ∧ 0 < m ∧
        m = (specLcmFold (x :: rest) : Int) ∧
        (∀ y : Int, y ∈ x :: rest → y ∣ m) ∧
        (∀ c : Int, (∀ y : Int, y ∈ x :: rest → y ∣ c) → m ∣ c)) ∧
    (∀ a : Int, calculateLCM [a] = some |a|) ∧
    (∀ a b : Int, a ≠ 0 → b ≠ 0 → a.natAbs * b.natAbs < 2 ^ 53 →
      ∃ m : Int, calculateLCM [a, b] = some m ∧ m * getGCD a b = |a * b|) ∧
    calculateLCM [4, 6] = some 12 := by
  refine ⟨calculateLCM_large_example, by decide, ?_, ?_, calculateLCM_pair_identity, ?_⟩
  · intro x rest h0 hb
    have hx : x ≠ 0 := h0 x (List.mem_cons_self _ _)
    have hrest : ∀ y ∈ rest, y ≠ 0 := fun y hy => h0 y (List.mem_cons_of_mem _ hy)
    refine ⟨_, calculateLCM_exact x rest h0 hb, ?_, rfl, ?_, ?_⟩
    · rw [specLcmFold_cons]
      have := foldl_lcm_ne_zero rest x.natAbs (Int.natAbs_ne_zero.2 hx) hrest
      exact_mod_cast Nat.pos_of_ne_zero this
    · intro y hy
      rw [specLcmFold_cons, Int.dvd_natCast]
      rcases List.mem_cons.1 hy with h | h
      · subst h; exact foldl_lcm_init_dvd rest _
      · exact foldl_lcm_mem_dvd rest _ y h
    · intro c hc
      rw [specLcmFold_cons, Int.natCast_dvd]
      exact foldl_lcm_dvd rest _ _ (Int.natAbs_dvd_natAbs.2 (hc x (List.mem_cons_self _ _)))
        (fun y hy => Int.natAbs_dvd_natAbs.2 (hc y (List.mem_cons_of_mem _ hy)))
  · intro a
    show some (mathAbs a) = some |a|
    rw [mathAbs_eq, Int.natCast_natAbs]
  · rw [calculateLCM_exact 4 [6] (by decide) (by decide)]
    decide


/-! ## The handler: operation selection -/

theorem postBfhl_shadowed (email apiKey : String) (provider : String → ProviderReply)
    (data : Payload) (hs : hasOwnProperty data "hasOwnProperty" = true) :
    postBfhl email apiKey provider data = some (failure email 500 "Something went wrong") := by
  unfold postBfhl
  rw [if_pos hs]

theorem postBfhl_no_operation (email apiKey : String) (provider : String → ProviderReply)
    (data : Payload) (hs : hasOwnProperty data "hasOwnProperty" = false)
    (h : ∀ op : String, op ∈ ops → hasOwnProperty data op = false) :
    postBfhl email apiKey provider data = some (failure email 400 "No operation specified") := by
  have hf := h "fibonacci" (by decide)
  have hp := h "prime" (by decide)
  have hl := h "lcm" (by decide)
  have hh := h "hcf" (by decide)
  have ha := h "AI" (by decide)
  simp [postBfhl, ops, List.filter, hs, hf, hp, hl, hh, ha]

theorem postBfhl_two_operations (email apiKey : String) (provider : String → ProviderReply)
    (data : Payload) (hs : hasOwnProperty data "hasOwnProperty" = false)
    (k1 k2 : String) (h1 : k1 ∈ ops) (h2 : k2 ∈ ops) (hne : k1 ≠ k2)
    (hk1 : hasOwnProperty data k1 = true) (hk2 : hasOwnProperty data k2 = true) :
    postBfhl email apiKey provider data
      = some (failure email 400 "Only one operation allowed per request") := by
  simp only [ops, List.mem_cons, List.mem_singleton, List.not_mem_nil, or_false] at h1 h2
  cases hf : hasOwnProperty data "fibonacci" <;> cases hp : hasOwnProperty data "prime" <;>
    cases hl : hasOwnProperty data "lcm" <;> cases hh : hasOwnProperty data "hcf" <;>
    cases ha : hasOwnProperty data "AI" <;>
    rcases h1 with rfl | rfl | rfl | rfl | rfl <;>
    rcases h2 with rfl | rfl | rfl | rfl | rfl <;>
    simp_all [postBfhl, ops, List.filter]

theorem postBfhl_single (email apiKey : String) (provider : String → ProviderReply)
    (data : Payload) (hs : hasOwnProperty data "hasOwnProperty" = false)
    (k : String) (hk : k ∈ ops) (hpres : hasOwnProperty data k = true)
    (hother : ∀ op : String, op ∈ ops → op ≠ k → hasOwnProperty data op = false) :
    postBfhl email apiKey provider data =
      if k = "fibonacci" then some (handleFibonacci email (property data "fibonacci"))
      else if k = "prime" then some (handlePrime email (property data "prime"))
      else if k = "lcm" then handleLcm email (property data "lcm")
      else if k = "hcf" then some (handleHcf email (property data "hcf"))
      else some (handleAI email apiKey provider (property data "AI")) := by
  simp only [ops, List.mem_cons, List.mem_singleton, List.not_mem_nil, or_false] at hk
  rcases hk with rfl | rfl | rfl | rfl | rfl
  · have hp := hother "prime" (by decide) (by decide)
    have hl := hother "lcm" (by decide) (by decide)
    have hh := hother "hcf" (by decide) (by decide)
    have ha := hother "AI" (by decide) (by decide)
    simp [postBfhl, ops, List.filter, hs, hpres, hp, hl, hh, ha]
  · have hf := hother "fibonacci" (by decide) (by decide)
    have hl := hother "lcm" (by decide) (by decide)
    have hh := hother "hcf" (by decide) (by decide)
    have ha := hother "AI" (by decide) (by decide)
    simp [postBfhl, ops, List.filter, hs, hpres, hf, hl, hh, ha]
  · have hf := hother "fibonacci" (by decide) (by decide)
    have hp := hother "prime" (by decide) (by decide)
    have hh := hother "hcf" (by decide) (by decide)
    have ha := hother "AI" (by decide) (by decide)
    simp [postBfhl, ops, List.filter, hs, hpres, hf, hp, hh, ha]
  · have hf := hother "fibonacci" (by decide) (by decide)
    have hp := hother "prime" (by decide) (by decide)
    have hl := hother "lcm" (by decide) (by decide)
    have ha := hother "AI" (by decide) (by decide)
    simp [postBfhl, ops, List.filter, hs, hpres, hf, hp, hl, ha]
  · have hf := hother "fibonacci" (by decide) (by decide)
    have hp := hother "prime" (by decide) (by decide)
    have hl := hother "lcm" (by decide) (by decide)
    have hh := hother "hcf" (by decide) (by decide)
    simp [postBfhl, ops, List.filter, hs, hpres, hf, hp, hl, hh]

/-! ## The handler: values that pass `Number.isInteger` -/

theorem isInt_intCast (n : Int) : ((n : ℚ)).isInt = true := by
  simp [Rat.isInt]

theorem eq_intCast_of_isInt (x : ℚ) (h : x.isInt = true) : x = ((x.num : Int) : ℚ) := by
  have hd : x.den = 1 := by simpa [Rat.isInt] using h
  exact (Rat.den_eq_one_iff x).1 hd |>.symm

theorem isInteger_num_intCast (n : Int) : isInteger (Json.ofInt n) = true :=
  isInt_intCast n

theorem isNumber_ofInt (n : Int) : isNumber (Json.ofInt n) = true := rfl

theorem integerValue_num_intCast (n : Int) : integerValue (Json.ofInt n) = n := by
  simp [integerValue, Json.ofInt]

theorem isInteger_iff (v : Json) : isInteger v = true ↔ ∃ n : Int, v = Json.ofInt n := by
  constructor
  · intro h
    cases v with
    | num x => exact ⟨x.num, by rw [Json.ofInt, ← eq_intCast_of_isInt x h]⟩
    | null => simp [isInteger] at h
    | bool b => simp [isInteger] at h
    | str s => simp [isInteger] at h
    | arr l => simp [isInteger] at h
    | obj m => simp [isInteger] at h
  · rintro ⟨n, rfl⟩
    exact isInteger_num_intCast n

theorem all_isInteger_iff (items : List Json) :
    items.all isInteger = true ↔ ∃ ints : List Int, items = ints.map Json.ofInt := by
  induction items with
  | nil => exact ⟨fun _ => ⟨[], rfl⟩, fun _ => rfl⟩
  | cons v items ih =>
    rw [List.all_cons, Bool.and_eq_true, ih, isInteger_iff]
    constructor
    · rintro ⟨⟨n, rfl⟩, ints, rfl⟩
      exact ⟨n :: ints, rfl⟩
    · rintro ⟨ints, h⟩
      cases ints with
      | nil => simp at h
      | cons n ints =>
        simp only [List.map_cons, List.cons.injEq] at h
        exact ⟨⟨n, h.1⟩, ints, h.2⟩

theorem map_integerValue (ints : List Int) :
    (ints.map Json.ofInt).map integerValue = ints := by
  induction ints with
  | nil => rfl
  | cons n ints ih => simp [integerValue_num_intCast, ih]

theorem all_isInteger_map (ints : List Int) :
    (ints.map Json.ofInt).all isInteger = true :=
  (all_isInteger_iff _).2 ⟨ints, rfl⟩

/-! ## The handler: the branches -/

theorem handleFibonacci_int (email : String) (n : Int) :
    handleFibonacci email (Json.ofInt n) =
      if n < 0 then failure email 400 "Input cannot be negative"
      else if n > 1000 then failure email 400 "Input too large"
      else success email (Data.list (getFibonacci n)) := by
  unfold handleFibonacci
  simp [isNumber_ofInt, isInteger_num_intCast, integerValue_num_intCast]

theorem handleFibonacci_not_int (email : String) (v : Json)
    (h : ∀ n : Int, v ≠ Json.ofInt n) :
    handleFibonacci email v = failure email 400 "Fibonacci input must be an integer" := by
  have h1 : isInteger v = false := by
    rw [← Bool.not_eq_true, isInteger_iff]
    rintro ⟨n, hn⟩
    exact h n hn
  unfold handleFibonacci
  simp [h1]

theorem handlePrime_ints (email : String) (ints : List Int) :
    handlePrime email (Json.arr (ints.map Json.ofInt)) =
      if ints.length = 0 then failure email 400 "Array cannot be empty"
      else if ints.length > 10000 then failure email 400 "Array too large"
      else success email (Data.list (getPrimes ints)) := by
  unfold handlePrime
  simp only [List.length_map, all_isInteger_map, map_integerValue]
  simp

theorem handleHcf_ints (email : String) (ints : List Int) :
    handleHcf email (Json.arr (ints.map Json.ofInt)) =
      if ints.length = 0 then failure email 400 "Array cannot be empty"
      else if ints.length > 1000 then failure email 400 "Array too large"
      else success email (Data.number (getHCF ints)) := by
  unfold handleHcf
  simp only [List.length_map, all_isInteger_map, map_integerValue]
  simp

theorem handleLcm_ints (email : String) (ints : List Int) :
    handleLcm email (Json.arr (ints.map Json.ofInt)) =
      if ints.length = 0 then some (failure email 400 "Array cannot be empty")
      else if ints.length > 1000 then some (failure email 400 "Array too large")
      else if (0 : Int) ∈ ints then some (failure email 400 "Cannot calculate LCM with zero")
      else (calculateLCM ints).map fun result => success email (Data.number result) := by
  unfold handleLcm
  simp only [List.length_map, all_isInteger_map, map_integerValue]
  simp

theorem handlePrime_not_array (email : String) (v : Json) (h : ∀ items, v ≠ Json.arr items) :
    handlePrime email v = failure email 400 "Prime input must be an array" := by
  unfold handlePrime
  split
  · exact absurd rfl (h _)
  · rfl

theorem handleLcm_not_array (email : String) (v : Json) (h : ∀ items, v ≠ Json.arr items) :
    handleLcm email v = some (failure email 400 "LCM input must be an array") := by
  unfold handleLcm
  split
  · exact absurd rfl (h _)
  · rfl

theorem handleHcf_not_array (email : String) (v : Json) (h : ∀ items, v ≠ Json.arr items) :
    handleHcf email v = failure email 400 "HCF input must be an array" := by
  unfold handleHcf
  split
  · exact absurd rfl (h _)
  · rfl


theorem handleFibonacci_ne_noOperation (email : String) (v : Json) :
    handleFibonacci email v ≠ failure email 400 "No operation specified" := by
  unfold handleFibonacci
  split_ifs <;> simp [failure, success]

theorem handlePrime_ne_noOperation (email : String) (v : Json) :
    handlePrime email v ≠ failure email 400 "No operation specified" := by
  unfold handlePrime
  split
  · split_ifs <;> simp [failure, success]
  · simp [failure]

theorem handleLcm_ne_noOperation (email : String) (v : Json) :
    handleLcm email v ≠ some (failure email 400 "No operation specified") := by
  unfold handleLcm
  split
  · split_ifs
    · simp [failure]
    · simp [failure]
    · simp [failure]
    · simp [failure]
    · cases calculateLCM _ <;> simp [failure, success]
  · simp [failure]

theorem handleHcf_ne_noOperation (email : String) (v : Json) :
    handleHcf email v ≠ failure email 400 "No operation specified" := by
  unfold handleHcf
  split
  · split_ifs <;> simp [failure, success]
  · simp [failure]

theorem handleAI_ne_noOperation (email apiKey : String) (provider : String → ProviderReply)
    (v : Json) : handleAI email apiKey provider v ≠ failure email 400 "No operation specified" := by
  unfold handleAI
  split
  · split_ifs
    · simp [failure]
    · simp [failure]
    · split <;> simp [failure, success]
  · simp [failure]

theorem postBfhl_ne_noOperation (email apiKey : String) (provider : String → ProviderReply)
    (data : Payload) (hs : hasOwnProperty data "hasOwnProperty" = false)
    (k : String) (hk : k ∈ ops) (hpres : hasOwnProperty data k = true) :
    postBfhl email apiKey provider data ≠ some (failure email 400 "No operation specified") := by
  have hF := handleFibonacci_ne_noOperation email (property data "fibonacci")
  have hP := handlePrime_ne_noOperation email (property data "prime")
  have hL := handleLcm_ne_noOperation email (property data "lcm")
  have hH := handleHcf_ne_noOperation email (property data "hcf")
  have hA := handleAI_ne_noOperation email apiKey provider (property data "AI")
  have h2 : failure email 400 "Only one operation allowed per request"
      ≠ failure email 400 "No operation specified" := by simp [failure]
  simp only [ops, List.mem_cons, List.mem_singleton, List.not_mem_nil, or_false] at hk
  cases hf : hasOwnProperty data "fibonacci" <;> cases hp : hasOwnProperty data "prime" <;>
    cases hl : hasOwnProperty data "lcm" <;> cases hh : hasOwnProperty data "hcf" <;>
    cases ha : hasOwnProperty data "AI" <;>
    rcases hk with rfl | rfl | rfl | rfl | rfl <;>
    simp_all [postBfhl, ops, List.filter]

/-- C6 (the code departs from the claim).  The body `{"hasOwnProperty": 1}` has
none of the operation keys, and `{"fibonacci": 5, "prime": [2],
"hasOwnProperty": 0}` has two of them, yet both are answered with status 500 and
`"Something went wrong"`: the own key shadows the method the handler calls.
What does hold, for every body without an own key `hasOwnProperty`: with none
of the five operation keys the answer is `"No operation specified"`; with two
different operation keys, whatever their values, it is `"Only one operation
allowed per request"`; with at least one operation key it is never `"No
operation specified"`.  So `{}` gives the first error, `{fibonacci: 5, prime:
[2]}` and `{fibonacci: "x", prime: null}` the second, `{fibonacci: null}` the
fibonacci type error and `{fibonacci: 0}` a success with data `[]`. -/
theorem operation_selection_counts_keys :
    (∀ (email apiKey : String) (provider : String → ProviderReply),
      postBfhl email apiKey provider [("hasOwnProperty", Json.ofInt 1)]
        = some (failure email 500 "Something went wrong") ∧
      postBfhl email apiKey provider
          [("fibonacci", Json.ofInt 5), ("prime", Json.arr [Json.ofInt 2]),
            ("hasOwnProperty", Json.ofInt 0)]
        = some (failure email 500 "Something went wrong") ∧
      postBfhl email apiKey provider [] = some (failure email 400 "No operation specified") ∧
      postBfhl email apiKey provider
          [("fibonacci", Json.ofInt 5), ("prime", Json.arr [Json.ofInt 2])]
        = some (failure email 400 "Only one operation allowed per request") ∧
      postBfhl email apiKey provider [("fibonacci", Json.str "x"), ("prime", Json.null)]
        = some (failure email 400 "Only one operation allowed per request") ∧
      postBfhl email apiKey provider [("fibonacci", Json.null)]
        = some (failure email 400 "Fibonacci input must be an integer") ∧
      postBfhl email apiKey provider [("fibonacci", Json.ofInt 0)]
        = some (success email (Data.list []))) ∧
    (∀ (email apiKey : String) (provider : String → ProviderReply) (data : Payload),
      hasOwnProperty data "hasOwnProperty" = false →
      (∀ op : String, op ∈ ops → hasOwnProperty data op = false) →
      postBfhl email apiKey provider data = some (failure email 400 "No operation specified")) ∧
    (∀ (email apiKey : String) (provider : String → ProviderReply) (data : Payload)
      (k1 k2 : String),
      hasOwnProperty data "hasOwnProperty" = false →
      k1 ∈ ops → k2 ∈ ops → k1 ≠ k2 →
      hasOwnProperty data k1 = true → hasOwnProperty data k2 = true →
      postBfhl email apiKey provider data
        = some (failure email 400 "Only one operation allowed per request")) ∧
    (∀ (email apiKey : String) (provider : String → ProviderReply) (data : Payload) (k : String),
      hasOwnProperty data "hasOwnProperty" = false →
      k ∈ ops → hasOwnProperty data k = true →
      postBfhl email apiKey provider data
        ≠ some (failure email 400 "No operation specified")) := by
  refine ⟨fun email apiKey provider => ⟨rfl, rfl, rfl, rfl, rfl, rfl, rfl⟩, ?_, ?_, ?_⟩
  · intro email apiKey provider data hs h
    exact postBfhl_no_operation email apiKey provider data hs h
  · intro email apiKey provider data k1 k2 hs h1 h2 hne hk1 hk2
    exact postBfhl_two_operations email apiKey provider data hs k1 k2 h1 h2 hne hk1 hk2
  · intro email apiKey provider data k hs hk hpres
    exact postBfhl_ne_noOperation email apiKey provider data hs k hk hpres

/-- C7 (the claim fails).  The body `{"ai": ""}` is answered `"No operation
specified"`, not with the AI handler's empty-question error, and `{"ai": "q",
"fibonacci": 5}` is answered with the Fibonacci result, not with `"Only one
operation allowed per request"`. -/
theorem lowercase_ai_is_not_an_operation :
    postBfhl "student@chitkara.edu.in" "key" (fun _ => ProviderReply.answered ["Paris."])
        [("ai", Json.str "")]
      = some (failure "student@chitkara.edu.in" 400 "No operation specified") ∧
    postBfhl "student@chitkara.edu.in" "key" (fun _ => ProviderReply.answered ["Paris."])
        [("ai", Json.str "q"), ("fibonacci", Json.ofInt 5)]
      = some (success "student@chitkara.edu.in" (Data.list [0, 1, 1, 2, 3])) := by
  exact ⟨rfl, rfl⟩

/-- C7, as amended.  The fifth operation is selected by the key `AI` (upper
case).  For every body whose only key is `AI` with a string value the handler
routes the value to the AI branch and never answers `"No operation specified"`:
`{AI: ""}` gives `"Question cannot be empty"`, `{AI: "What is the capital of
France?"}` gives what `askAI` returns or throws for that question (the answer
`"Paris"` when the provider replies `"Paris."`), and `{AI: q, fibonacci: 5}` gives `"Only one operation allowed per request"`.  A key `ai`
(lower case) selects nothing: `{ai: q}` gives `"No operation specified"` and
`{ai: q, fibonacci: 5}` the Fibonacci result. -/
theorem uppercase_AI_selects_the_ai_operation (email apiKey : String)
    (provider : String → ProviderReply) (q : String) :
    postBfhl email apiKey provider [("AI", Json.str q)]
      = some (handleAI email apiKey provider (Json.str q)) ∧
    postBfhl email apiKey provider [("AI", Json.str q)]
      ≠ some (failure email 400 "No operation specified") ∧
    postBfhl email apiKey provider [("AI", Json.str "")]
      = some (failure email 400 "Question cannot be empty") ∧
    postBfhl email apiKey provider [("AI", Json.str "What is the capital of France?")]
      = some (match askAI apiKey provider "What is the capital of France?" with
          | Except.ok answer => success email (Data.text answer)
          | Except.error message => failure email 500 message) ∧
    postBfhl email "key" (fun _ => ProviderReply.answered ["Paris."])
        [("AI", Json.str "What is the capital of France?")]
      = some (success email (Data.text "Paris")) ∧
    postBfhl email apiKey provider [("AI", Json.str q), ("fibonacci", Json.ofInt 5)]
      = some (failure email 400 "Only one operation allowed per request") ∧
    postBfhl email apiKey provider [("ai", Json.str q)]
      = some (failure email 400 "No operation specified") ∧
    postBfhl email apiKey provider [("ai", Json.str q), ("fibonacci", Json.ofInt 5)]
      = some (success email (Data.list [0, 1, 1, 2, 3])) := by
  refine ⟨rfl, ?_, rfl, rfl, rfl, rfl, rfl, rfl⟩
  intro h
  have h1 : postBfhl email apiKey provider [("AI", Json.str q)]
      = some (handleAI email apiKey provider (Json.str q)) := rfl
  rw [h1] at h
  exact handleAI_ne_noOperation email apiKey provider (Json.str q) (Option.some.inj h)

/-! ## The handler: the fibonacci branch -/

theorem property_of_lookup (data : Payload) (key : String) (v : Json)
    (h : data.lookup key = some v) : property data key = v := by
  unfold property
  rw [h]; rfl

theorem hasOwnProperty_of_lookup (data : Payload) (key : String) (v : Json)
    (h : data.lookup key = some v) : hasOwnProperty data key = true := by
  unfold hasOwnProperty
  rw [h]; rfl

theorem handleFibonacci_success_iff (email : String) (v : Json) :
    (handleFibonacci email v).body.is_success = true
      ↔ ∃ n : Int, v = Json.ofInt n ∧ 0 ≤ n ∧ n ≤ 1000 := by
  constructor
  · intro h
    by_cases hv : ∃ n : Int, v = Json.ofInt n
    · obtain ⟨n, rfl⟩ := hv
      refine ⟨n, rfl, ?_⟩
      rw [handleFibonacci_int] at h
      split_ifs at h with h1 h2
      · simp [failure] at h
      · simp [failure] at h
      · omega
    · rw [handleFibonacci_not_int email v (fun n hn => hv ⟨n, hn⟩)] at h
      simp [failure] at h
  · rintro ⟨n, rfl, h0, h1⟩
    rw [handleFibonacci_int, if_neg (by omega), if_neg (by omega)]
    rfl

theorem postBfhl_fibonacci (email apiKey : String) (provider : String → ProviderReply)
    (data : Payload) (v : Json) (hs : hasOwnProperty data "hasOwnProperty" = false)
    (hv : data.lookup "fibonacci" = some v)
    (hother : ∀ op : String, op ∈ ops → op ≠ "fibonacci" → hasOwnProperty data op = false) :
    postBfhl email apiKey provider data = some (handleFibonacci email v) := by
  rw [postBfhl_single email apiKey provider data hs "fibonacci" (by decide)
    (hasOwnProperty_of_lookup data _ v hv) hother, if_pos rfl, property_of_lookup data _ v hv]

/-- C8 (the code departs from the claim).  The body `{"fibonacci": 5,
"hasOwnProperty": 1}` has fibonacci as its only operation key, with a valid
value, yet it is answered with status 500 and `"Something went wrong"`.
What does hold, for every body without an own key `hasOwnProperty` whose only
operation key is fibonacci, with value `v`: the response is the one of the
fibonacci branch; it is a success exactly when `v` is an integer number with
`0 <= v <= 1000`, and then its data is `getFibonacci(v)`; it is `"Fibonacci
input must be an integer"` when `v` is not an integer number, `"Input cannot be
negative"` when `v` is an integer below 0, and `"Input too large"` when `v` is
an integer above 1000.  So 0 and 1000 succeed, 1001 and -1 fail, and so do 2.5,
`null`, a string and an array. -/
theorem fibonacci_request_validation :
    (∀ (email apiKey : String) (provider : String → ProviderReply),
      postBfhl email apiKey provider [("fibonacci", Json.ofInt 5), ("hasOwnProperty", Json.ofInt 1)]
        = some (failure email 500 "Something went wrong")) ∧
    (∀ (email apiKey : String) (provider : String → ProviderReply) (data : Payload) (v : Json),
      hasOwnProperty data "hasOwnProperty" = false →
      data.lookup "fibonacci" = some v →
      (∀ op : String, op ∈ ops → op ≠ "fibonacci" → hasOwnProperty data op = false) →
      postBfhl email apiKey provider data = some (handleFibonacci email v)) ∧
    (∀ (email : String) (v : Json),
      (handleFibonacci email v).body.is_success = true
        ↔ ∃ n : Int, v = Json.ofInt n ∧ 0 ≤ n ∧ n ≤ 1000) ∧
    (∀ (email : String) (n : Int), 0 ≤ n → n ≤ 1000 →
      handleFibonacci email (Json.ofInt n) = success email (Data.list (getFibonacci n))) ∧
    (∀ (email : String) (v : Json), (∀ n : Int, v ≠ Json.ofInt n) →
      handleFibonacci email v = failure email 400 "Fibonacci input must be an integer") ∧
    (∀ (email : String) (n : Int), n < 0 →
      handleFibonacci email (Json.ofInt n) = failure email 400 "Input cannot be negative") ∧
    (∀ (email : String) (n : Int), 1000 < n →
      handleFibonacci email (Json.ofInt n) = failure email 400 "Input too large") ∧
    (∀ email : String,
      handleFibonacci email (Json.ofInt 0) = success email (Data.list []) ∧
      handleFibonacci email (Json.ofInt 1000) = success email (Data.list (getFibonacci 1000)) ∧
      handleFibonacci email (Json.ofInt 1001) = failure email 400 "Input too large" ∧
      handleFibonacci email (Json.ofInt (-1)) = failure email 400 "Input cannot be negative" ∧
      handleFibonacci email (Json.num (mkRat 5 2))
        = failure email 400 "Fibonacci input must be an integer" ∧
      handleFibonacci email Json.null = failure email 400 "Fibonacci input must be an integer" ∧
      handleFibonacci email (Json.str "5")
        = failure email 400 "Fibonacci input must be an integer" ∧
      handleFibonacci email (Json.arr [Json.ofInt 5])
        = failure email 400 "Fibonacci input must be an integer") := by
  refine ⟨fun _ _ _ => rfl, postBfhl_fibonacci, handleFibonacci_success_iff, ?_,
    handleFibonacci_not_int, ?_, ?_, ?_⟩
  · intro email n h0 h1
    rw [handleFibonacci_int, if_neg (by omega), if_neg (by omega)]
  · intro email n h
    rw [handleFibonacci_int, if_pos h]
  · intro email n h
    rw [handleFibonacci_int, if_neg (by omega), if_pos h]
  · intro email
    refine ⟨rfl, ?_, ?_, rfl, rfl, rfl, rfl, rfl⟩
    · rw [handleFibonacci_int, if_neg (by decide), if_neg (by decide)]
    · rw [handleFibonacci_int, if_neg (by decide), if_pos (by decide)]


/-! ## The handler: the prime, lcm and hcf branches -/

theorem handlePrime_success_iff (email : String) (v : Json) :
    (handlePrime email v).body.is_success = true
      ↔ ∃ ints : List Int, v = Json.arr (ints.map Json.ofInt) ∧ 1 ≤ ints.length ∧
          ints.length ≤ 10000 := by
  constructor
  · intro h
    unfold handlePrime at h
    split at h
    · rename_i items
      split_ifs at h with h1 h2 h3
      · simp [failure] at h
      · simp [failure] at h
      · simp [failure] at h
      · have hall : items.all isInteger = true := by simpa using h3
        obtain ⟨ints, rfl⟩ := (all_isInteger_iff items).1 hall
        refine ⟨ints, rfl, ?_, ?_⟩
        · rw [List.length_map] at h1; omega
        · rw [List.length_map] at h2; omega
    · simp [failure] at h
  · rintro ⟨ints, rfl, h1, h2⟩
    rw [handlePrime_ints, if_neg (by omega), if_neg (by omega)]
    rfl

theorem handleHcf_success_iff (email : String) (v : Json) :
    (handleHcf email v).body.is_success = true
      ↔ ∃ ints : List Int, v = Json.arr (ints.map Json.ofInt) ∧ 1 ≤ ints.length ∧
          ints.length ≤ 1000 := by
  constructor
  · intro h
    unfold handleHcf at h
    split at h
    · rename_i items
      split_ifs at h with h1 h2 h3
      · simp [failure] at h
      · simp [failure] at h
      · simp [failure] at h
      · have hall : items.all isInteger = true := by simpa using h3
        obtain ⟨ints, rfl⟩ := (all_isInteger_iff items).1 hall
        refine ⟨ints, rfl, ?_, ?_⟩
        · rw [List.length_map] at h1; omega
        · rw [List.length_map] at h2; omega
    · simp [failure] at h
  · rintro ⟨ints, rfl, h1, h2⟩
    rw [handleHcf_ints, if_neg (by omega), if_neg (by omega)]
    rfl

theorem handleLcm_success_imp (email : String) (v : Json) (r : Response)
    (hr : handleLcm email v = some r) (h : r.body.is_success = true) :
    ∃ ints : List Int, v = Json.arr (ints.map Json.ofInt) ∧ 1 ≤ ints.length ∧
      ints.length ≤ 1000 ∧ (0 : Int) ∉ ints ∧
      ∃ m : Int, calculateLCM ints = some m ∧ r = success email (Data.number m) := by
  unfold handleLcm at hr
  split at hr
  · rename_i items
    split_ifs at hr with h1 h2 h3 h4
    · rw [← Option.some.inj hr] at h; simp [failure] at h
    · rw [← Option.some.inj hr] at h; simp [failure] at h
    · rw [← Option.some.inj hr] at h; simp [failure] at h
    · rw [← Option.some.inj hr] at h; simp [failure] at h
    · have hall : items.all isInteger = true := by simpa using h3
      obtain ⟨ints, rfl⟩ := (all_isInteger_iff items).1 hall
      rw [map_integerValue] at hr h4
      refine ⟨ints, rfl, ?_, ?_, ?_, ?_⟩
      · rw [List.length_map] at h1; omega
      · rw [List.length_map] at h2; omega
      · intro h0
        exact h4 (List.any_eq_true.2 ⟨0, h0, by simp⟩)
      · cases hc : calculateLCM ints with
        | none => rw [hc] at hr; simp at hr
        | some m =>
          rw [hc] at hr
          exact ⟨m, rfl, (Option.some.inj hr).symm⟩
  · rw [← Option.some.inj hr] at h; simp [failure] at h

theorem handleLcm_valid (email : String) (ints : List Int) (h1 : 1 ≤ ints.length)
    (h2 : ints.length ≤ 1000) (h0 : (0 : Int) ∉ ints) :
    handleLcm email (Json.arr (ints.map Json.ofInt))
      = (calculateLCM ints).map fun result => success email (Data.number result) := by
  rw [handleLcm_ints, if_neg (by omega), if_neg (by omega), if_neg h0]

theorem failure_data (email : String) (status : Nat) (error : String) :
    (failure email status error).body.data = none := rfl

theorem handlePrime_failure_no_data (email : String) (v : Json)
    (h : (handlePrime email v).body.is_success = false) :
    (handlePrime email v).body.data = none := by
  revert h
  unfold handlePrime
  split
  · split_ifs <;> simp [failure, success]
  · simp [failure]

theorem handleHcf_failure_no_data (email : String) (v : Json)
    (h : (handleHcf email v).body.is_success = false) :
    (handleHcf email v).body.data = none := by
  revert h
  unfold handleHcf
  split
  · split_ifs <;> simp [failure, success]
  · simp [failure]

theorem handleLcm_failure_no_data (email : String) (v : Json) (r : Response)
    (hr : handleLcm email v = some r) (h : r.body.is_success = false) :
    r.body.data = none := by
  revert hr
  unfold handleLcm
  split
  · split_ifs
    · intro hr; rw [← Option.some.inj hr]; rfl
    · intro hr; rw [← Option.some.inj hr]; rfl
    · intro hr; rw [← Option.some.inj hr]; rfl
    · intro hr; rw [← Option.some.inj hr]; rfl
    · intro hr
      cases hc : calculateLCM _ with
      | none => rw [hc] at hr; simp at hr
      | some m =>
        rw [hc] at hr
        rw [← Option.some.inj hr] at h
        simp [success] at h
  · intro hr; rw [← Option.some.inj hr]; rfl

theorem postBfhl_prime (email apiKey : String) (provider : String → ProviderReply)
    (data : Payload) (v : Json) (hs : hasOwnProperty data "hasOwnProperty" = false)
    (hv : data.lookup "prime" = some v)
    (hother : ∀ op : String, op ∈ ops → op ≠ "prime" → hasOwnProperty data op = false) :
    postBfhl email apiKey provider data = some (handlePrime email v) := by
  rw [postBfhl_single email apiKey provider data hs "prime" (by decide)
    (hasOwnProperty_of_lookup data _ v hv) hother, if_neg (by decide), if_pos rfl,
    property_of_lookup data _ v hv]

theorem postBfhl_lcm (email apiKey : String) (provider : String → ProviderReply)
    (data : Payload) (v : Json) (hs : hasOwnProperty data "hasOwnProperty" = false)
    (hv : data.lookup "lcm" = some v)
    (hother : ∀ op : String, op ∈ ops → op ≠ "lcm" → hasOwnProperty data op = false) :
    postBfhl email apiKey provider data = handleLcm email v := by
  rw [postBfhl_single email apiKey provider data hs "lcm" (by decide)
    (hasOwnProperty_of_lookup data _ v hv) hother, if_neg (by decide), if_neg (by decide),
    if_pos rfl, property_of_lookup data _ v hv]

theorem postBfhl_hcf (email apiKey : String) (provider : String → ProviderReply)
    (data : Payload) (v : Json) (hs : hasOwnProperty data "hasOwnProperty" = false)
    (hv : data.lookup "hcf" = some v)
    (hother : ∀ op : String, op ∈ ops → op ≠ "hcf" → hasOwnProperty data op = false) :
    postBfhl email apiKey provider data = some (handleHcf email v) := by
  rw [postBfhl_single email apiKey provider data hs "hcf" (by decide)
    (hasOwnProperty_of_lookup data _ v hv) hother, if_neg (by decide), if_neg (by decide),
    if_neg (by decide), if_pos rfl, property_of_lookup data _ v hv]

/-- C9 (the code departs from the claim).  The body `{"prime": [2, 3],
"hasOwnProperty": 1}` has prime as its only operation key, with a valid value,
yet it is answered with status 500 and `"Something went wrong"`.
What does hold, for every body without an own key `hasOwnProperty` whose only
operation key is prime, lcm or hcf, with value `v`: the response is the one of
that key's branch.  The prime and hcf branches answer with a success exactly
when `v` is an array of integers of length 1 to 10000 (prime) or 1 to 1000
(hcf), and the data is then `getPrimes(v)` or `getHCF(v)`.  A response of the
lcm branch is a success exactly when `v` is an array of non-zero integers of
length 1 to 1000, and the branch then answers with the data `calculateLCM(v)`.
An array longer than the limit is answered `"Array too large"`, and a failure
carries no data. -/
theorem array_request_validation :
    (∀ (email apiKey : String) (provider : String → ProviderReply),
      postBfhl email apiKey provider
          [("prime", Json.arr [Json.ofInt 2, Json.ofInt 3]), ("hasOwnProperty", Json.ofInt 1)]
        = some (failure email 500 "Something went wrong")) ∧
    (∀ (email apiKey : String) (provider : String → ProviderReply) (data : Payload) (v : Json),
      hasOwnProperty data "hasOwnProperty" = false →
      ((data.lookup "prime" = some v →
          (∀ op : String, op ∈ ops → op ≠ "prime" → hasOwnProperty data op = false) →
          postBfhl email apiKey provider data = some (handlePrime email v)) ∧
       (data.lookup "lcm" = some v →
          (∀ op : String, op ∈ ops → op ≠ "lcm" → hasOwnProperty data op = false) →
          postBfhl email apiKey provider data = handleLcm email v) ∧
       (data.lookup "hcf" = some v →
          (∀ op : String, op ∈ ops → op ≠ "hcf" → hasOwnProperty data op = false) →
          postBfhl email apiKey provider data = some (handleHcf email v)))) ∧
    (∀ (email : String) (v : Json),
      ((handlePrime email v).body.is_success = true
        ↔ ∃ ints : List Int, v = Json.arr (ints.map Json.ofInt) ∧ 1 ≤ ints.length ∧
            ints.length ≤ 10000) ∧
      ((handleHcf email v).body.is_success = true
        ↔ ∃ ints : List Int, v = Json.arr (ints.map Json.ofInt) ∧ 1 ≤ ints.length ∧
            ints.length ≤ 1000) ∧
      (∀ r : Response, handleLcm email v = some r →
        (r.body.is_success = true
          ↔ ∃ ints : List Int, v = Json.arr (ints.map Json.ofInt) ∧ 1 ≤ ints.length ∧
              ints.length ≤ 1000 ∧ (0 : Int) ∉ ints)) ∧
      ((handlePrime email v).body.is_success = false → (handlePrime email v).body.data = none) ∧
      ((handleHcf email v).body.is_success = false → (handleHcf email v).body.data = none) ∧
      (∀ r : Response, handleLcm email v = some r → r.body.is_success = false →
        r.body.data = none)) ∧
    (∀ (email : String) (ints : List Int),
      (1 ≤ ints.length → ints.length ≤ 10000 →
        handlePrime email (Json.arr (ints.map Json.ofInt))
          = success email (Data.list (getPrimes ints))) ∧
      (1 ≤ ints.length → ints.length ≤ 1000 →
        handleHcf email (Json.arr (ints.map Json.ofInt))
          = success email (Data.number (getHCF ints))) ∧
      (1 ≤ ints.length → ints.length ≤ 1000 → (0 : Int) ∉ ints →
        handleLcm email (Json.arr (ints.map Json.ofInt))
          = (calculateLCM ints).map fun result => success email (Data.number result)) ∧
      (10000 < ints.length →
        handlePrime email (Json.arr (ints.map Json.ofInt))
          = failure email 400 "Array too large") ∧
      (1000 < ints.length →
        handleHcf email (Json.arr (ints.map Json.ofInt)) = failure email 400 "Array too large" ∧
        handleLcm email (Json.arr (ints.map Json.ofInt))
          = some (failure email 400 "Array too large"))) := by
  refine ⟨fun _ _ _ => rfl, ?_, ?_, ?_⟩
  · intro email apiKey provider data v hs
    exact ⟨postBfhl_prime email apiKey provider data v hs,
      postBfhl_lcm email apiKey provider data v hs,
      postBfhl_hcf email apiKey provider data v hs⟩
  · intro email v
    refine ⟨handlePrime_success_iff email v, handleHcf_success_iff email v, ?_,
      handlePrime_failure_no_data email v, handleHcf_failure_no_data email v,
      handleLcm_failure_no_data email v⟩
    intro r hr
    constructor
    · intro h
      obtain ⟨ints, hv, h1, h2, h0, _⟩ := handleLcm_success_imp email v r hr h
      exact ⟨ints, hv, h1, h2, h0⟩
    · rintro ⟨ints, rfl, h1, h2, h0⟩
      rw [handleLcm_valid email ints h1 h2 h0] at hr
      cases hc : calculateLCM ints with
      | none => rw [hc] at hr; simp at hr
      | some m =>
        rw [hc] at hr
        rw [← Option.some.inj hr]
        rfl
  · intro email ints
    refine ⟨?_, ?_, handleLcm_valid email ints, ?_, ?_⟩
    · intro h1 h2
      rw [handlePrime_ints, if_neg (by omega), if_neg (by omega)]
    · intro h1 h2
      rw [handleHcf_ints, if_neg (by omega), if_neg (by omega)]
    · intro h
      rw [handlePrime_ints, if_neg (by omega), if_pos h]
    · intro h
      constructor
      · rw [handleHcf_ints, if_neg (by omega), if_pos h]
      · rw [handleLcm_ints, if_neg (by omega), if_pos h]

/-! ## Zero elements -/

theorem getHCF_eq_listGcd_all (l : List Int) : getHCF l = (listGcd l : Int) := by
  cases l with
  | nil => rfl
  | cons x rest => exact getHCF_eq_listGcd x rest

theorem foldl_gcd_filter_ne_zero (l : List Int) (g : Nat) :
    (l.filter fun y => decide (y ≠ 0)).foldl (fun acc x => Nat.gcd acc x.natAbs) g
      = l.foldl (fun acc x => Nat.gcd acc x.natAbs) g := by
  induction l generalizing g with
  | nil => rfl
  | cons x l ih =>
    by_cases hx : x = 0
    · subst hx
      simpa [List.filter] using ih g
    · simpa [List.filter, hx] using ih (Nat.gcd g x.natAbs)

theorem getHCF_filter_ne_zero (l : List Int) :
    getHCF (l.filter fun y => decide (y ≠ 0)) = getHCF l := by
  rw [getHCF_eq_listGcd_all, getHCF_eq_listGcd_all, listGcd, listGcd, foldl_gcd_filter_ne_zero]

/-- C10.  For every array of integers of length 1 to 1000 that contains a
zero, the request `{lcm: array}` is answered with `is_success = false`, status
400 and the error `"Cannot calculate LCM with zero"`, and the request `{hcf:
array}` is answered with `is_success = true` and the data `getHCF(array)`,
which is the greatest common divisor of the elements (non-negative, dividing
every element, divided by every common divisor) and is unchanged when the zeros
are left out.  `{lcm: [4, 0]}` fails, `{hcf: [4, 0]}` returns 4 and `{hcf: [0,
0]}` returns 0. -/
theorem zero_rejected_by_lcm_accepted_by_hcf (email apiKey : String)
    (provider : String → ProviderReply) (ints : List Int)
    (h1 : 1 ≤ ints.length) (h2 : ints.length ≤ 1000) (h0 : (0 : Int) ∈ ints) :
    postBfhl email apiKey provider [("lcm", Json.arr (ints.map Json.ofInt))]
      = some (failure email 400 "Cannot calculate LCM with zero") ∧
    postBfhl email apiKey provider [("hcf", Json.arr (ints.map Json.ofInt))]
      = some (success email (Data.number (getHCF ints))) ∧
    0 ≤ getHCF ints ∧
    (∀ y : Int, y ∈ ints → getHCF ints ∣ y) ∧
    (∀ d : Int, (∀ y : Int, y ∈ ints → d ∣ y) → d ∣ getHCF ints) ∧
    getHCF (ints.filter fun y => decide (y ≠ 0)) = getHCF ints ∧
    postBfhl email apiKey provider [("lcm", Json.arr [Json.ofInt 4, Json.ofInt 0])]
      = some (failure email 400 "Cannot calculate LCM with zero") ∧
    postBfhl email apiKey provider [("hcf", Json.arr [Json.ofInt 4, Json.ofInt 0])]
      = some (success email (Data.number 4)) ∧
    postBfhl email apiKey provider [("hcf", Json.arr [Json.ofInt 0, Json.ofInt 0])]
      = some (success email (Data.number 0)) := by
  have hl : ∀ v : Json, postBfhl email apiKey provider [("lcm", v)] = handleLcm email v :=
    fun _ => rfl
  have hh : ∀ v : Json, postBfhl email apiKey provider [("hcf", v)] = some (handleHcf email v) :=
    fun _ => rfl
  have e40 : getHCF [4, 0] = 4 := by rw [getHCF_eq_listGcd]; decide
  have e00 : getHCF [0, 0] = 0 := by rw [getHCF_eq_listGcd]; decide
  refine ⟨?_, ?_, ?_, ?_, ?_, getHCF_filter_ne_zero ints, ?_, ?_, ?_⟩
  · rw [hl, handleLcm_ints, if_neg (by omega), if_neg (by omega), if_pos h0]
  · rw [hh, handleHcf_ints, if_neg (by omega), if_neg (by omega)]
  · rw [getHCF_eq_listGcd_all]; exact Int.natCast_nonneg _
  · intro y hy
    rw [getHCF_eq_listGcd_all]; exact listGcd_dvd _ y hy
  · intro d hd
    rw [getHCF_eq_listGcd_all]; exact dvd_listGcd _ d hd
  · rw [hl]
    exact (handleLcm_ints email [4, 0]).trans (by simp)
  · rw [hh]
    refine congrArg some ((handleHcf_ints email [4, 0]).trans ?_)
    simp [e40]
  · rw [hh]
    refine congrArg some ((handleHcf_ints email [0, 0]).trans ?_)
    simp [e00]

/-- C10 at the array `[4, 0]`. -/
theorem zero_rejected_by_lcm_accepted_by_hcf_witness :
    (1 ≤ ([4, 0] : List Int).length ∧ ([4, 0] : List Int).length ≤ 1000 ∧
      (0 : Int) ∈ ([4, 0] : List Int)) ∧
    postBfhl "student@chitkara.edu.in" "" (fun _ => ProviderReply.failed "")
        [("lcm", Json.arr (([4, 0] : List Int).map Json.ofInt))]
      = some (failure "student@chitkara.edu.in" 400 "Cannot calculate LCM with zero") ∧
    postBfhl "student@chitkara.edu.in" "" (fun _ => ProviderReply.failed "")
        [("hcf", Json.arr (([4, 0] : List Int).map Json.ofInt))]
      = some (success "student@chitkara.edu.in" (Data.number (getHCF [4, 0]))) :=
  ⟨⟨by decide, by decide, by decide⟩,
    (zero_rejected_by_lcm_accepted_by_hcf "student@chitkara.edu.in" ""
      (fun _ => ProviderReply.failed "") [4, 0] (by decide) (by decide) (by decide)).1,
    (zero_rejected_by_lcm_accepted_by_hcf "student@chitkara.edu.in" ""
      (fun _ => ProviderReply.failed "") [4, 0] (by decide) (by decide) (by decide)).2.1⟩


/-! ## The loop of `getGCD`: termination -/

theorem jsMod_bounds (a b : Int) (ha : 0 ≤ a) (hb : 0 < b) : 0 ≤ jsMod a b ∧ jsMod a b < b :=
  ⟨Int.tmod_nonneg b ha, Int.tmod_lt_of_pos a hb⟩

theorem gcdRun_mono (n m : Nat) (a b : JsNum) (r : JsNum) (h : gcdRun n a b = some r) :
    gcdRun (n + m) a b = some r := by
  induction n generalizing a b with
  | zero =>
    rw [gcdRun] at h
    split_ifs at h with hb
    cases m with
    | zero => rw [Nat.add_zero, gcdRun, if_pos hb]; exact h
    | succ m => rw [Nat.zero_add, gcdRun, if_pos hb]; exact h
  | succ n ih =>
    rw [gcdRun] at h
    rw [Nat.add_right_comm, gcdRun]
    split_ifs at h ⊢ with hb
    · exact h
    · exact ih _ _ h

theorem gcdRun_finite (a b : Int) (ha : 0 ≤ a) (hb : 0 ≤ b) :
    gcdRun b.toNat (JsNum.finite a) (JsNum.finite b) = some (JsNum.finite (getGCDLoop a b)) := by
  refine getGCDLoop.induct
    (fun a b => 0 ≤ a → 0 ≤ b →
      gcdRun b.toNat (JsNum.finite a) (JsNum.finite b) = some (JsNum.finite (getGCDLoop a b)))
    ?_ ?_ a b ha hb
  · intro a _ _
    rw [getGCDLoop, if_pos rfl]
    rfl
  · intro a b hb0 ih ha hb
    have hpos : 0 < b := lt_of_le_of_ne hb (Ne.symm hb0)
    obtain ⟨h1, h2⟩ := jsMod_bounds a b ha hpos
    have ih1 := ih hb h1
    obtain ⟨k, hk⟩ : ∃ k, b.toNat = k + 1 := ⟨b.toNat - 1, by omega⟩
    have hne : JsNum.finite b ≠ JsNum.finite 0 := by
      intro h
      exact hb0 (JsNum.finite.inj h)
    rw [hk, gcdRun, if_neg hne, getGCDLoop, if_neg hb0]
    have hrem : jsRemainder (JsNum.finite a) (JsNum.finite b) = JsNum.finite (jsMod a b) := by
      simp [jsRemainder, hb0]
    rw [hrem]
    obtain ⟨m, hm⟩ : ∃ m, k = (jsMod a b).toNat + m := ⟨k - (jsMod a b).toNat, by omega⟩
    rw [hm]
    exact gcdRun_mono _ m _ _ _ ih1

theorem gcdRun_nan (n : Nat) (a : JsNum) : gcdRun n a JsNum.nan = none := by
  induction n generalizing a with
  | zero => rfl
  | succ n ih =>
    rw [gcdRun, if_neg (by decide)]
    have : jsRemainder a JsNum.nan = JsNum.nan := by cases a <;> rfl
    rw [this]
    exact ih _

theorem gcdRun_infinity (n : Nat) (b : Int) (hb : b ≠ 0) :
    gcdRun n JsNum.infinity (JsNum.finite b) = none := by
  have hne : JsNum.finite b ≠ JsNum.finite 0 := fun h => hb (JsNum.finite.inj h)
  cases n with
  | zero => rw [gcdRun, if_neg hne]
  | succ n =>
    rw [gcdRun, if_neg hne]
    exact gcdRun_nan n _

/-- C19.  `getGCD` terminates for every pair of integers: after `Math.abs` the
loop variable `b` is non-negative and each iteration replaces it by `a % b`,
which is non-negative and smaller than `b`, so the loop is left within `|b|`
iterations with the value the function returns.  That value is the
non-negative greatest common divisor of `a` and `b`: it divides both and every
common divisor divides it.  `getGCD(a, 0) = getGCD(0, a) = |a|` and
`getGCD(0, 0) = 0`. -/
theorem getGCD_terminates_with_gcd :
    (∀ a b : Int, 0 ≤ a → 0 < b → 0 ≤ jsMod a b ∧ jsMod a b < b) ∧
    (∀ a b : Int,
      gcdRun (mathAbs b).toNat (JsNum.finite (mathAbs a)) (JsNum.finite (mathAbs b))
        = some (JsNum.finite (getGCD a b))) ∧
    (∀ a b : Int, 0 ≤ getGCD a b ∧ getGCD a b ∣ a ∧ getGCD a b ∣ b ∧
      ∀ d : Int, d ∣ a → d ∣ b → d ∣ getGCD a b) ∧
    (∀ a : Int, getGCD a 0 = |a| ∧ getGCD 0 a = |a|) ∧
    getGCD 0 0 = 0 := by
  refine ⟨jsMod_bounds, ?_, ?_, ?_, ?_⟩
  · intro a b
    exact gcdRun_finite _ _ (by rw [mathAbs_eq]; omega) (by rw [mathAbs_eq]; omega)
  · intro a b
    rw [getGCD_eq]
    exact ⟨Int.natCast_nonneg _, Int.gcd_dvd_left, Int.gcd_dvd_right,
      fun d h1 h2 => Int.dvd_gcd h1 h2⟩
  · intro a
    rw [getGCD_eq, getGCD_eq, Int.gcd_zero_right, Int.gcd_zero_left, Int.natCast_natAbs]
    exact ⟨rfl, rfl⟩
  · rw [getGCD_eq]; rfl


/-! ## `getFibonacci`: the size of the terms -/

theorem fibLoop_add (k1 k2 i : Nat) (fib : List Int) :
    fibLoop (k1 + k2) i fib = fibLoop k2 (i + k1) (fibLoop k1 i fib) := by
  induction k1 generalizing i fib with
  | zero => simp [fibLoop]
  | succ k1 ih =>
    rw [Nat.add_right_comm, fibLoop, ih, fibLoop]
    congr 1
    omega

theorem fibLoop_take (k i : Nat) (fib : List Int) :
    (fibLoop k i fib).take fib.length = fib := by
  induction k generalizing i fib with
  | zero => simp [fibLoop]
  | succ k ih =>
    rw [fibLoop]
    have h := ih (i + 1) (fib ++ [jsAdd (fib.getD (i - 1) 0) (fib.getD (i - 2) 0)])
    have h2 := congrArg (List.take fib.length) h
    rw [List.take_take] at h2
    simpa using h2

theorem getFibonacci_prefix (m n : Nat) (hm : 2 ≤ m) (hmn : m ≤ n) :
    (getFibonacci n).take m = getFibonacci m := by
  unfold getFibonacci
  rw [if_neg (by omega), if_neg (by omega), if_neg (by omega), if_neg (by omega)]
  simp only [Int.toNat_natCast]
  have e : n - 2 = (m - 2) + (n - m) := by omega
  rw [e, fibLoop_add, List.take_take, min_eq_left hmn]
  have hl : (fibLoop (m - 2) 2 [0, 1]).length = m := by
    rw [fibLoop_length]; simp; omega
  have h := fibLoop_take (n - m) (2 + (m - 2)) (fibLoop (m - 2) 2 [0, 1])
  rw [hl] at h
  rw [h, List.take_of_length_le (le_of_eq hl)]

theorem getFibonacci_entry_79 (n : Nat) (h : 80 ≤ n) :
    (getFibonacci n).getD 79 0 = 14472334024676220 := by
  have h1 := getFibonacci_prefix 80 n (by omega) h
  have h2 : ((getFibonacci n).take 80).getD 79 0 = (getFibonacci n).getD 79 0 := by
    simp [List.getD_eq_getElem?_getD, List.getElem?_take]
  rw [← h2, h1]
  exact getFibonacci_80_last

set_option maxRecDepth 100000 in
theorem getFibonacci_80_sum :
    (getFibonacci 80).getD 78 0 + (getFibonacci 80).getD 77 0 = 14472334024676221 := by
  decide

set_option maxRecDepth 100000 in
theorem getFibonacci_80_rounded_sum :
    jsAdd ((getFibonacci 80).getD 78 0) ((getFibonacci 80).getD 77 0) = 14472334024676220 := by
  decide

theorem canonicalFib_le_safe (i : Nat) (h : i ≤ 78) : (canonicalFib i : Int) ≤ 2 ^ 53 - 1 := by
  have := canonicalFib_lt_of_le_78 i h
  have h2 : ((canonicalFib i : Nat) : Int) < ((2 ^ 53 : Nat) : Int) := by exact_mod_cast this
  have h3 : (((2 : Nat) ^ 53 : Nat) : Int) = (2 : Int) ^ 53 := by norm_num
  omega

/-- C20 (the code departs from the claim).  For every accepted `n >= 80` the
term of `getFibonacci(n)` at index 79 is 14472334024676220, above `2 ^ 53 - 1`
(9007199254740991); it comes from the sum `fib[78] + fib[77]`, whose exact value
is 14472334024676221, so that addition is rounded and the term is not the
Fibonacci number `F(79)`.
What does hold: for every `n <= 79`, every term of `getFibonacci(n)` and every
sum `fib[i - 1] + fib[i - 2]` the loop forms (`2 <= i < n`) is between 0 and
`2 ^ 53 - 1`, each addition is exact, and the terms are the Fibonacci numbers. -/
theorem getFibonacci_terms_exceed_safe_range :
    (∀ n : Nat, 80 ≤ n → n ≤ 1000 →
      (getFibonacci n).getD 79 0 = 14472334024676220 ∧
      ¬ ((getFibonacci n).getD 79 0 ≤ 2 ^ 53 - 1) ∧
      (getFibonacci n).getD 79 0 ≠ (canonicalFib 79 : Int)) ∧
    (getFibonacci 80).getD 78 0 + (getFibonacci 80).getD 77 0 = 14472334024676221 ∧
    jsAdd ((getFibonacci 80).getD 78 0) ((getFibonacci 80).getD 77 0)
      ≠ (getFibonacci 80).getD 78 0 + (getFibonacci 80).getD 77 0 ∧
    (∀ n i : Nat, n ≤ 79 → i < n →
      (getFibonacci n).getD i 0 = (canonicalFib i : Int) ∧
      0 ≤ (getFibonacci n).getD i 0 ∧ (getFibonacci n).getD i 0 ≤ 2 ^ 53 - 1) ∧
    (∀ n i : Nat, n ≤ 79 → 2 ≤ i → i < n →
      (getFibonacci n).getD (i - 1) 0 + (getFibonacci n).getD (i - 2) 0 ≤ 2 ^ 53 - 1 ∧
      jsAdd ((getFibonacci n).getD (i - 1) 0) ((getFibonacci n).getD (i - 2) 0)
        = (getFibonacci n).getD (i - 1) 0 + (getFibonacci n).getD (i - 2) 0) := by
  refine ⟨?_, getFibonacci_80_sum, ?_, ?_, ?_⟩
  · intro n h1 _
    rw [getFibonacci_entry_79 n h1, canonicalFib_79]
    exact ⟨rfl, by decide, by decide⟩
  · rw [getFibonacci_80_sum, getFibonacci_80_rounded_sum]
    decide
  · intro n i hn hi
    rw [getFibonacci_exact n hn, canonicalPrefix_getD n i hi]
    exact ⟨rfl, Int.natCast_nonneg _, canonicalFib_le_safe i (by omega)⟩
  · intro n i hn h2 hi
    rw [getFibonacci_exact n hn, canonicalPrefix_getD n (i - 1) (by omega),
      canonicalPrefix_getD n (i - 2) (by omega)]
    have h3 : canonicalFib i = canonicalFib (i - 1) + canonicalFib (i - 2) := by
      obtain ⟨j, rfl⟩ : ∃ j, i = j + 2 := ⟨i - 2, by omega⟩
      simp [canonicalFib]
    have h4 := canonicalFib_le_safe i (by omega)
    rw [h3] at h4
    push_cast at h4
    refine ⟨h4, ?_⟩
    unfold jsAdd
    apply roundToDouble_exact
    have h5 := canonicalFib_lt_of_le_78 i (by omega)
    rw [h3] at h5
    have e : ((canonicalFib (i - 1) : Int) + (canonicalFib (i - 2) : Int)).natAbs
        = canonicalFib (i - 1) + canonicalFib (i - 2) := by
      rw [← Int.natCast_add, Int.natAbs_ofNat]
    rw [e]; exact h5


/-! ## The normalisation of the answer -/

theorem dropWhile_head_not {α : Type} (p : α → Bool) (l : List α) (c : α)
    (h : (l.dropWhile p).head? = some c) : p c = false := by
  induction l with
  | nil => simp at h
  | cons x l ih =>
    rw [List.dropWhile_cons] at h
    split_ifs at h with hx
    · exact ih h
    · simp only [List.head?_cons, Option.some.injEq] at h
      subst h
      simpa using hx

theorem rstrip_decomp {α : Type} (p : α → Bool) (l : List α) :
    l = (l.reverse.dropWhile p).reverse ++ (l.reverse.takeWhile p).reverse := by
  have h := List.takeWhile_append_dropWhile p l.reverse
  have h2 := congrArg List.reverse h
  rw [List.reverse_append, List.reverse_reverse] at h2
  exact h2.symm

theorem rstrip_run {α : Type} (p : α → Bool) (l : List α) (c : α)
    (h : c ∈ (l.reverse.takeWhile p).reverse) : p c = true :=
  List.mem_takeWhile_imp (List.mem_reverse.1 h)

theorem rstrip_last_not {α : Type} (p : α → Bool) (l : List α) (c : α)
    (h : ((l.reverse.dropWhile p).reverse).getLast? = some c) : p c = false := by
  rw [List.getLast?_reverse] at h
  exact dropWhile_head_not p _ c h

theorem rstrip_eq_self {α : Type} (p : α → Bool) (l : List α)
    (h : ∀ c, l.getLast? = some c → p c = false) :
    (l.reverse.dropWhile p).reverse = l := by
  have h1 : l.reverse.dropWhile p = l.reverse := by
    cases hr : l.reverse with
    | nil => rfl
    | cons x t =>
      have hx : l.getLast? = some x := by
        rw [← List.head?_reverse, hr]; rfl
      have := h x hx
      rw [List.dropWhile_cons, if_neg (by simp [this])]
  rw [h1, List.reverse_reverse]

theorem lstrip_eq_self {α : Type} (p : α → Bool) (l : List α) (h : ∀ c ∈ l, p c = false) :
    l.dropWhile p = l := by
  cases l with
  | nil => rfl
  | cons x t =>
    have := h x (List.mem_cons_self _ _)
    rw [List.dropWhile_cons, if_neg (by simp [this])]

theorem firstWord_no_whitespace (ans : List Char) (c : Char) (h : c ∈ firstWord ans) :
    isJsWhitespace c = false := by
  have := List.mem_takeWhile_imp h
  simpa using this

theorem stripTrailingPunctuation_initial (w : List Char) : stripTrailingPunctuation w <+: w :=
  ⟨_, (rstrip_decomp isTrailingPunctuation w).symm⟩

theorem normalizeAnswer_data (ans : String) :
    (normalizeAnswer ans).data = stripTrailingPunctuation (firstWord ans.data) := rfl

theorem normalizeAnswer_no_whitespace (ans : String) (c : Char)
    (h : c ∈ (normalizeAnswer ans).data) : isJsWhitespace c = false :=
  firstWord_no_whitespace ans.data c
    ((stripTrailingPunctuation_initial (firstWord ans.data)).subset h)

theorem normalizeAnswer_last (ans : String) (c : Char)
    (h : (normalizeAnswer ans).data.getLast? = some c) : isTrailingPunctuation c = false :=
  rstrip_last_not isTrailingPunctuation _ c h

theorem jsTrim_eq_self (l : List Char) (h : ∀ c ∈ l, isJsWhitespace c = false) : jsTrim l = l := by
  unfold jsTrim
  rw [lstrip_eq_self _ l h]
  apply rstrip_eq_self
  intro c hc
  exact h c (List.mem_of_getLast?_eq_some hc)

theorem firstWord_eq_self (l : List Char) (h : ∀ c ∈ l, isJsWhitespace c = false) :
    firstWord l = l := by
  unfold firstWord
  rw [jsTrim_eq_self l h, List.takeWhile_eq_self_iff]
  intro c hc
  simp [h c hc]

theorem normalizeAnswer_idempotent (ans : String) :
    normalizeAnswer (normalizeAnswer ans) = normalizeAnswer ans := by
  apply String.ext
  rw [normalizeAnswer_data (normalizeAnswer ans),
    firstWord_eq_self _ (normalizeAnswer_no_whitespace ans)]
  exact rstrip_eq_self _ _ (normalizeAnswer_last ans)

theorem firstWord_decomp (ans : List Char) :
    ∃ rest : List Char, jsTrim ans = firstWord ans ++ rest ∧
      ∀ c, rest.head? = some c → isJsWhitespace c = true := by
  refine ⟨(jsTrim ans).dropWhile fun c => !isJsWhitespace c, ?_, ?_⟩
  · exact (List.takeWhile_append_dropWhile _ _).symm
  · intro c hc
    have := dropWhile_head_not _ _ c hc
    simpa using this

theorem jsTrim_decomp (s : List Char) :
    ∃ lead trail : List Char, s = lead ++ jsTrim s ++ trail ∧
      (∀ c ∈ lead, isJsWhitespace c = true) ∧ (∀ c ∈ trail, isJsWhitespace c = true) ∧
      (∀ c, (jsTrim s).head? = some c → isJsWhitespace c = false) ∧
      (∀ c, (jsTrim s).getLast? = some c → isJsWhitespace c = false) := by
  refine ⟨s.takeWhile isJsWhitespace,
    ((s.dropWhile isJsWhitespace).reverse.takeWhile isJsWhitespace).reverse, ?_, ?_, ?_, ?_, ?_⟩
  · unfold jsTrim
    rw [List.append_assoc, ← rstrip_decomp, List.takeWhile_append_dropWhile]
  · intro c hc
    exact List.mem_takeWhile_imp hc
  · intro c hc
    exact rstrip_run _ _ c hc
  · intro c hc
    have hp : jsTrim s <+: s.dropWhile isJsWhitespace :=
      ⟨_, (rstrip_decomp isJsWhitespace (s.dropWhile isJsWhitespace)).symm⟩
    obtain ⟨t, ht⟩ := hp
    have h2 : (s.dropWhile isJsWhitespace).head? = some c := by
      rw [← ht]
      cases hj : jsTrim s with
      | nil => rw [hj] at hc; simp at hc
      | cons x r => rw [hj] at hc; simpa using hc
    exact dropWhile_head_not _ _ c h2
  · intro c hc
    exact rstrip_last_not _ _ c hc


theorem jsTrim_eq_nil_iff (l : List Char) :
    jsTrim l = [] ↔ ∀ c ∈ l, isJsWhitespace c = true := by
  constructor
  · intro h
    have h1 : ∀ c ∈ l.dropWhile isJsWhitespace, isJsWhitespace c = true :=
      List.rdropWhile_eq_nil_iff.1 h
    have h2 : l.dropWhile isJsWhitespace = [] := by
      cases hd : l.dropWhile isJsWhitespace with
      | nil => rfl
      | cons x t =>
        have hx := dropWhile_head_not isJsWhitespace l x (by rw [hd]; rfl)
        have hx2 := h1 x (by rw [hd]; exact List.mem_cons_self _ _)
        rw [hx] at hx2
        cases hx2
    exact List.dropWhile_eq_nil_iff.1 h2
  · intro h
    unfold jsTrim
    rw [List.dropWhile_eq_nil_iff.2 h]
    rfl

theorem firstWord_eq_nil_iff (l : List Char) :
    firstWord l = [] ↔ ∀ c ∈ l, isJsWhitespace c = true := by
  rw [← jsTrim_eq_nil_iff]
  constructor
  · intro h
    obtain ⟨_, _, _, _, _, hhead, _⟩ := jsTrim_decomp l
    cases hj : jsTrim l with
    | nil => rfl
    | cons x t =>
      have hx := hhead x (by rw [hj]; rfl)
      unfold firstWord at h
      rw [hj, List.takeWhile_cons, if_pos (by simp [hx])] at h
      cases h
  · intro h
    unfold firstWord
    rw [h]
    rfl

theorem normalizeAnswer_eq_empty_iff (ans : String) :
    normalizeAnswer ans = "" ↔ ∀ c ∈ firstWord ans.data, isTrailingPunctuation c = true := by
  rw [String.ext_iff, normalizeAnswer_data]
  exact List.rdropWhile_eq_nil_iff

theorem normalizeAnswer_decomp (ans : String) :
    ∃ run : List Char, firstWord ans.data = (normalizeAnswer ans).data ++ run ∧
      ∀ c ∈ run, isTrailingPunctuation c = true :=
  ⟨_, rstrip_decomp isTrailingPunctuation (firstWord ans.data),
    fun c hc => rstrip_run _ _ c hc⟩

/-- C13.  For every text `ans`, the answer `askAI` returns is obtained by
trimming the text (`lead` and `trail` are the white space removed), taking its
first token (the trimmed text up to its first white space) and deleting from
the token its longest trailing run of the characters `. , ! ? ; :`: the token
is the answer followed by a run of these characters, and the answer does not
end with one.  So the answer contains no white space, is a prefix of the token
and keeps the leading and interior punctuation: `"  Paris.  It is"` gives
`"Paris"`, `"U.S.A.!?"` gives `"U.S.A"` and `"...no."` gives `"...no"`.
Normalising an answer again returns it unchanged. -/
theorem normalizeAnswer_first_token_stripped :
    (∀ ans : String,
      (∃ lead trail : List Char, ans.data = lead ++ jsTrim ans.data ++ trail ∧
        (∀ c ∈ lead, isJsWhitespace c = true) ∧ (∀ c ∈ trail, isJsWhitespace c = true) ∧
        (∀ c, (jsTrim ans.data).head? = some c → isJsWhitespace c = false) ∧
        (∀ c, (jsTrim ans.data).getLast? = some c → isJsWhitespace c = false)) ∧
      (∃ rest : List Char, jsTrim ans.data = firstWord ans.data ++ rest ∧
        ∀ c, rest.head? = some c → isJsWhitespace c = true) ∧
      (∀ c ∈ firstWord ans.data, isJsWhitespace c = false) ∧
      (∃ run : List Char, firstWord ans.data = (normalizeAnswer ans).data ++ run ∧
        ∀ c ∈ run, isTrailingPunctuation c = true) ∧
      (∀ c, (normalizeAnswer ans).data.getLast? = some c → isTrailingPunctuation c = false) ∧
      (∀ c ∈ (normalizeAnswer ans).data, isJsWhitespace c = false) ∧
      (normalizeAnswer ans).data <+: firstWord ans.data ∧
      normalizeAnswer (normalizeAnswer ans) = normalizeAnswer ans) ∧
    normalizeAnswer "  Paris.  It is" = "Paris" ∧
    normalizeAnswer "U.S.A.!?" = "U.S.A" ∧
    normalizeAnswer "...no." = "...no" := by
  refine ⟨fun ans => ⟨jsTrim_decomp ans.data, firstWord_decomp ans.data,
    firstWord_no_whitespace ans.data, normalizeAnswer_decomp ans, normalizeAnswer_last ans,
    normalizeAnswer_no_whitespace ans, stripTrailingPunctuation_initial _,
    normalizeAnswer_idempotent ans⟩, by decide, by decide, by decide⟩

theorem handleAI_success_data (email apiKey : String) (provider : String → ProviderReply)
    (v : Json) (h : (handleAI email apiKey provider v).body.is_success = true) :
    ∃ (q ans : String) (rest : List String), v = Json.str q ∧
      apiKey ≠ "" ∧
      provider ("Answer this question with just one word: " ++ q)
        = ProviderReply.answered (ans :: rest) ∧
      handleAI email apiKey provider v = success email (Data.text (normalizeAnswer ans)) := by
  unfold handleAI at h ⊢
  split at h
  · rename_i q
    split_ifs at h with h1 h2
    · simp [failure] at h
    · simp [failure] at h
    · unfold askAI at h ⊢
      split_ifs at h ⊢ with hk
      · simp [failure] at h
      · cases hp : provider ("Answer this question with just one word: " ++ q) with
        | answered texts =>
          cases texts with
          | nil => rw [hp] at h; simp [failure] at h
          | cons ans rest => exact ⟨q, ans, rest, rfl, hk, hp, rfl⟩
        | upstream s => rw [hp] at h; simp [failure] at h
        | failed m => rw [hp] at h; simp [failure] at h
  · simp [failure] at h

/-- C17 (the claim fails).  For the texts `""`, `"   "`, `"..."` and `"?! yes"`
the normalised answer is the empty string, and the request `{AI: "q"}` whose
provider returns a candidate with the text `""` succeeds with the data `""`. -/
theorem empty_answer_is_returned_as_success :
    normalizeAnswer "" = "" ∧ normalizeAnswer "   " = "" ∧ normalizeAnswer "..." = "" ∧
    normalizeAnswer "?! yes" = "" ∧
    postBfhl "student@chitkara.edu.in" "key" (fun _ => ProviderReply.answered [""])
        [("AI", Json.str "q")]
      = some (success "student@chitkara.edu.in" (Data.text "")) := by
  refine ⟨by decide, by decide, by decide, by decide, rfl⟩

/-! ## The handler: the AI branch -/

theorem handleAI_not_string (email apiKey : String) (provider : String → ProviderReply)
    (v : Json) (h : ∀ q : String, v ≠ Json.str q) :
    handleAI email apiKey provider v = failure email 400 "Question must be a string" ∧
    handleAICalls apiKey v = [] := by
  unfold handleAI handleAICalls
  constructor
  · split
    · exact absurd rfl (h _)
    · rfl
  · split
    · exact absurd rfl (h _)
    · rfl

theorem handleAI_empty (email apiKey : String) (provider : String → ProviderReply)
    (q : String) (h : ∀ c ∈ q.data, isJsWhitespace c = true) :
    handleAI email apiKey provider (Json.str q) = failure email 400 "Question cannot be empty" ∧
    handleAICalls apiKey (Json.str q) = [] := by
  have h1 : (jsTrim q.data).isEmpty = true := by
    rw [(jsTrim_eq_nil_iff q.data).2 h]; rfl
  unfold handleAI handleAICalls
  simp only [h1, if_true]
  exact ⟨trivial, trivial⟩

theorem jsTrim_isEmpty_false (q : String) (h : ¬ ∀ c ∈ q.data, isJsWhitespace c = true) :
    (jsTrim q.data).isEmpty = false := by
  cases hj : jsTrim q.data with
  | nil => exact absurd ((jsTrim_eq_nil_iff q.data).1 hj) h
  | cons x t => rfl

theorem handleAI_too_long (email apiKey : String) (provider : String → ProviderReply)
    (q : String) (h : ¬ ∀ c ∈ q.data, isJsWhitespace c = true) (hl : 500 < jsLength q) :
    handleAI email apiKey provider (Json.str q) = failure email 400 "Question too long" ∧
    handleAICalls apiKey (Json.str q) = [] := by
  have h1 := jsTrim_isEmpty_false q h
  unfold handleAI handleAICalls
  simp only [h1, Bool.false_eq_true, if_false, gt_iff_lt, hl, if_true]
  exact ⟨trivial, trivial⟩

theorem handleAI_valid (email apiKey : String) (provider : String → ProviderReply)
    (q : String) (h : ¬ ∀ c ∈ q.data, isJsWhitespace c = true) (hl : jsLength q ≤ 500) :
    handleAI email apiKey provider (Json.str q)
      = (match askAI apiKey provider q with
          | Except.ok answer => success email (Data.text answer)
          | Except.error message => failure email 500 message) ∧
    handleAICalls apiKey (Json.str q) = askAICalls apiKey q := by
  have h1 := jsTrim_isEmpty_false q h
  have h2 : ¬ jsLength q > 500 := by omega
  unfold handleAI handleAICalls
  simp only [h1, Bool.false_eq_true, if_false, h2]
  exact ⟨trivial, trivial⟩

theorem postBfhl_AI (email apiKey : String) (provider : String → ProviderReply)
    (data : Payload) (v : Json) (hs : hasOwnProperty data "hasOwnProperty" = false)
    (hv : data.lookup "AI" = some v)
    (hother : ∀ op : String, op ∈ ops → op ≠ "AI" → hasOwnProperty data op = false) :
    postBfhl email apiKey provider data = some (handleAI email apiKey provider v) ∧
    postBfhlCalls apiKey data = handleAICalls apiKey v := by
  constructor
  · rw [postBfhl_single email apiKey provider data hs "AI" (by decide)
      (hasOwnProperty_of_lookup data _ v hv) hother, if_neg (by decide), if_neg (by decide),
      if_neg (by decide), if_neg (by decide), property_of_lookup data _ v hv]
  · have hf := hother "fibonacci" (by decide) (by decide)
    have hp := hother "prime" (by decide) (by decide)
    have hl := hother "lcm" (by decide) (by decide)
    have hh := hother "hcf" (by decide) (by decide)
    have ha := hasOwnProperty_of_lookup data _ v hv
    simp [postBfhlCalls, ops, List.filter, hs, hf, hp, hl, hh, ha, property_of_lookup data _ v hv]

theorem askAICalls_of_key (apiKey q : String) (h : apiKey ≠ "") :
    askAICalls apiKey q = ["Answer this question with just one word: " ++ q] := by
  unfold askAICalls
  rw [if_neg h]

theorem askAICalls_no_key (q : String) : askAICalls "" q = [] := rfl

theorem jsLength_replicate_a (n : Nat) : jsLength (String.mk (List.replicate n 'a')) = n := by
  unfold jsLength
  induction n with
  | zero => rfl
  | succ n ih =>
    simp only [List.replicate_succ, List.map_cons, List.sum_cons] at ih ⊢
    rw [ih]
    have : ('a' : Char).toNat < 65536 := by decide
    simp [this]
    omega

theorem jsLength_cons (c : Char) (l : List Char) :
    jsLength (String.mk (c :: l)) = (if c.toNat < 65536 then 1 else 2) + jsLength (String.mk l) := by
  simp [jsLength]


theorem not_all_whitespace_of_trim {l : List Char} (h : jsTrim l ≠ []) :
    ¬ ∀ c ∈ l, isJsWhitespace c = true :=
  fun hall => h ((jsTrim_eq_nil_iff l).2 hall)

theorem handleAICalls_ne_nil_iff (apiKey : String) (v : Json) :
    handleAICalls apiKey v ≠ [] ↔
      apiKey ≠ "" ∧ ∃ q : String, v = Json.str q ∧ jsTrim q.data ≠ [] ∧ jsLength q ≤ 500 := by
  constructor
  · intro h
    unfold handleAICalls at h
    split at h
    · rename_i q
      split_ifs at h with h1 h2
      · exact absurd rfl h
      · exact absurd rfl h
      · unfold askAICalls at h
        split_ifs at h with hk
        · exact absurd rfl h
        · refine ⟨hk, q, rfl, ?_, by omega⟩
          intro hnil
          rw [hnil] at h1
          exact h1 rfl
    · exact absurd rfl h
  · rintro ⟨hk, q, rfl, h1, h2⟩
    rw [(handleAI_valid "" apiKey (fun _ => ProviderReply.failed "") q
      (not_all_whitespace_of_trim h1) h2).2, askAICalls_of_key apiKey q hk]
    simp

theorem replicate_a_not_whitespace (n : Nat) (l : List Char) :
    ¬ ∀ c ∈ l ++ List.replicate (n + 1) 'a', isJsWhitespace c = true := by
  intro h
  have := h 'a' (by simp)
  revert this
  decide

/-- C14 (the code departs from the claim).  The body `{"AI": "What is the
capital of France?", "hasOwnProperty": 1}` has `AI` as its only operation key,
with a valid question, yet it is answered with status 500 and `"Something went
wrong"` and `askAI` is not called.
What does hold, for every body without an own key `hasOwnProperty` whose only
operation key is `AI`, with value `q`: the response is the one of the AI
branch.  When `q` is a string whose trimmed form is non-empty and whose
`length` is at most 500, the branch answers with what `askAI(q)` returns or
throws, `askAI` receiving `q` itself, untrimmed; the remote provider is then
called once, with a prompt that ends with `q`, unless the API key is missing.
Otherwise the branch answers 400 with `"Question must be a string"`, `"Question
cannot be empty"` or `"Question too long"`, in this order of checks, and the
provider is not called.  A question of 500 letters is accepted, one of 501
rejected, also one of a blank and 500 letters. -/
theorem question_validation :
    (∀ (email apiKey : String) (provider : String → ProviderReply),
      postBfhl email apiKey provider
          [("AI", Json.str "What is the capital of France?"), ("hasOwnProperty", Json.ofInt 1)]
        = some (failure email 500 "Something went wrong") ∧
      postBfhlCalls apiKey
          [("AI", Json.str "What is the capital of France?"), ("hasOwnProperty", Json.ofInt 1)]
        = []) ∧
    (∀ (email apiKey : String) (provider : String → ProviderReply) (data : Payload) (v : Json),
      hasOwnProperty data "hasOwnProperty" = false →
      data.lookup "AI" = some v →
      (∀ op : String, op ∈ ops → op ≠ "AI" → hasOwnProperty data op = false) →
      postBfhl email apiKey provider data = some (handleAI email apiKey provider v) ∧
      postBfhlCalls apiKey data = handleAICalls apiKey v) ∧
    (∀ (email apiKey : String) (provider : String → ProviderReply) (q : String),
      jsTrim q.data ≠ [] → jsLength q ≤ 500 →
      handleAI email apiKey provider (Json.str q)
        = (match askAI apiKey provider q with
            | Except.ok answer => success email (Data.text answer)
            | Except.error message => failure email 500 message) ∧
      handleAICalls apiKey (Json.str q) = askAICalls apiKey q ∧
      (apiKey ≠ "" → handleAICalls apiKey (Json.str q)
        = ["Answer this question with just one word: " ++ q]) ∧
      (apiKey = "" → handleAICalls apiKey (Json.str q) = [])) ∧
    (∀ (email apiKey : String) (provider : String → ProviderReply) (v : Json),
      (∀ q : String, v ≠ Json.str q) →
      handleAI email apiKey provider v = failure email 400 "Question must be a string" ∧
      handleAICalls apiKey v = []) ∧
    (∀ (email apiKey : String) (provider : String → ProviderReply) (q : String),
      jsTrim q.data = [] →
      handleAI email apiKey provider (Json.str q) = failure email 400 "Question cannot be empty" ∧
      handleAICalls apiKey (Json.str q) = []) ∧
    (∀ (email apiKey : String) (provider : String → ProviderReply) (q : String),
      jsTrim q.data ≠ [] → 500 < jsLength q →
      handleAI email apiKey provider (Json.str q) = failure email 400 "Question too long" ∧
      handleAICalls apiKey (Json.str q) = []) ∧
    (∀ (apiKey : String) (v : Json),
      handleAICalls apiKey v ≠ [] ↔
        apiKey ≠ "" ∧ ∃ q : String, v = Json.str q ∧ jsTrim q.data ≠ [] ∧ jsLength q ≤ 500) ∧
    (∀ (email apiKey : String) (provider : String → ProviderReply),
      handleAI email apiKey provider (Json.str (String.mk (List.replicate 500 'a')))
        = (match askAI apiKey provider (String.mk (List.replicate 500 'a')) with
            | Except.ok answer => success email (Data.text answer)
            | Except.error message => failure email 500 message) ∧
      handleAI email apiKey provider (Json.str (String.mk (List.replicate 501 'a')))
        = failure email 400 "Question too long" ∧
      handleAI email apiKey provider (Json.str (String.mk (' ' :: List.replicate 500 'a')))
        = failure email 400 "Question too long") := by
  refine ⟨fun _ _ _ => ⟨rfl, rfl⟩, postBfhl_AI, ?_, handleAI_not_string, ?_, ?_,
    handleAICalls_ne_nil_iff, ?_⟩
  · intro email apiKey provider q h1 h2
    obtain ⟨ha, hb⟩ := handleAI_valid email apiKey provider q (not_all_whitespace_of_trim h1) h2
    refine ⟨ha, hb, ?_, ?_⟩
    · intro hk
      rw [hb, askAICalls_of_key apiKey q hk]
    · intro hk
      rw [hb, hk]
      rfl
  · intro email apiKey provider q h
    exact handleAI_empty email apiKey provider q ((jsTrim_eq_nil_iff q.data).1 h)
  · intro email apiKey provider q h1 h2
    exact handleAI_too_long email apiKey provider q (not_all_whitespace_of_trim h1) h2
  · intro email apiKey provider
    have h500 : ¬ ∀ c ∈ (String.mk (List.replicate 500 'a')).data, isJsWhitespace c = true :=
      replicate_a_not_whitespace 499 []
    have h501 : ¬ ∀ c ∈ (String.mk (List.replicate 501 'a')).data, isJsWhitespace c = true :=
      replicate_a_not_whitespace 500 []
    have hb500 : ¬ ∀ c ∈ (String.mk (' ' :: List.replicate 500 'a')).data,
        isJsWhitespace c = true := replicate_a_not_whitespace 499 [' ']
    refine ⟨?_, ?_, ?_⟩
    · exact (handleAI_valid email apiKey provider (String.mk (List.replicate 500 'a')) h500
        (by rw [jsLength_replicate_a])).1
    · exact (handleAI_too_long email apiKey provider (String.mk (List.replicate 501 'a')) h501
        (by rw [jsLength_replicate_a]; decide)).1
    · refine (handleAI_too_long email apiKey provider
        (String.mk (' ' :: List.replicate 500 'a')) hb500 ?_).1
      rw [jsLength_cons, jsLength_replicate_a]
      decide


theorem askAI_no_key (provider : String → ProviderReply) (q : String) :
    askAI "" provider q = Except.error "API key not configured" := rfl

theorem askAI_upstream (apiKey : String) (provider : String → ProviderReply) (q : String)
    (s : Nat) (hk : apiKey ≠ "")
    (hp : provider ("Answer this question with just one word: " ++ q) = ProviderReply.upstream s) :
    askAI apiKey provider q = Except.error ("API error: " ++ toString s) := by
  unfold askAI
  rw [if_neg hk, hp]

theorem askAI_failed (apiKey : String) (provider : String → ProviderReply) (q : String)
    (m : String) (hk : apiKey ≠ "")
    (hp : provider ("Answer this question with just one word: " ++ q) = ProviderReply.failed m) :
    askAI apiKey provider q = Except.error ("Service error: " ++ m) := by
  unfold askAI
  rw [if_neg hk, hp]

theorem askAI_no_candidate (apiKey : String) (provider : String → ProviderReply) (q : String)
    (hk : apiKey ≠ "")
    (hp : provider ("Answer this question with just one word: " ++ q)
      = ProviderReply.answered []) :
    askAI apiKey provider q = Except.error "Service error: No AI response" := by
  unfold askAI
  rw [if_neg hk, hp]
  rfl

theorem askAI_answered (apiKey : String) (provider : String → ProviderReply) (q : String)
    (ans : String) (rest : List String) (hk : apiKey ≠ "")
    (hp : provider ("Answer this question with just one word: " ++ q)
      = ProviderReply.answered (ans :: rest)) :
    askAI apiKey provider q = Except.ok (normalizeAnswer ans) := by
  unfold askAI
  rw [if_neg hk, hp]

theorem postBfhl_AI_valid (email apiKey : String) (provider : String → ProviderReply)
    (q : String) (h1 : jsTrim q.data ≠ []) (h2 : jsLength q ≤ 500) :
    postBfhl email apiKey provider [("AI", Json.str q)]
      = some (match askAI apiKey provider q with
          | Except.ok answer => success email (Data.text answer)
          | Except.error message => failure email 500 message) ∧
    postBfhlCalls apiKey [("AI", Json.str q)] = askAICalls apiKey q := by
  have ha : postBfhl email apiKey provider [("AI", Json.str q)]
      = some (handleAI email apiKey provider (Json.str q)) := rfl
  have hb : postBfhlCalls apiKey [("AI", Json.str q)] = handleAICalls apiKey (Json.str q) := rfl
  obtain ⟨hc, hd⟩ := handleAI_valid email apiKey provider q (not_all_whitespace_of_trim h1) h2
  rw [ha, hb, hc, hd]
  exact ⟨rfl, rfl⟩

theorem suffix_of_append (a b : String) : b.data <:+ (a ++ b).data :=
  ⟨a.data, by rw [String.data_append]⟩

theorem append_left_cancel (a b c : String) (h : a ++ b = a ++ c) : b = c := by
  apply String.ext
  have := congrArg String.data h
  rw [String.data_append, String.data_append] at this
  exact List.append_cancel_left this

/-- C15.  For every input-valid question `q` (a string whose trimmed form is
non-empty and whose `length` is at most 500), sent as `{AI: q}`: with an empty
API key the request fails with status 500 and the provider is not called; with
a key the provider is called exactly once (no second call), with the prompt
built from `q`; when the provider reports the upstream status `s` the request
fails with the error `"API error: "` followed by `s`; when the call fails in
transport or times out, and when no candidate is returned, the request fails;
and the request succeeds only when a key is configured and the provider
returned at least one candidate text, whose normalised first text is the data.
Every failure of the request has status 500. -/
theorem provider_failure_is_a_failure (email apiKey : String)
    (provider : String → ProviderReply) (q : String)
    (h1 : jsTrim q.data ≠ []) (h2 : jsLength q ≤ 500) :
    (apiKey = "" →
      postBfhl email apiKey provider [("AI", Json.str q)]
        = some (failure email 500 "API key not configured") ∧
      postBfhlCalls apiKey [("AI", Json.str q)] = []) ∧
    (apiKey ≠ "" →
      postBfhlCalls apiKey [("AI", Json.str q)]
        = ["Answer this question with just one word: " ++ q]) ∧
    (postBfhlCalls apiKey [("AI", Json.str q)]).length ≤ 1 ∧
    (∀ s : Nat, apiKey ≠ "" →
      provider ("Answer this question with just one word: " ++ q) = ProviderReply.upstream s →
      postBfhl email apiKey provider [("AI", Json.str q)]
        = some (failure email 500 ("API error: " ++ toString s)) ∧
      (toString s).data <:+ ("API error: " ++ toString s).data) ∧
    (∀ m : String, apiKey ≠ "" →
      provider ("Answer this question with just one word: " ++ q) = ProviderReply.failed m →
      postBfhl email apiKey provider [("AI", Json.str q)]
        = some (failure email 500 ("Service error: " ++ m))) ∧
    (apiKey ≠ "" →
      provider ("Answer this question with just one word: " ++ q) = ProviderReply.answered [] →
      postBfhl email apiKey provider [("AI", Json.str q)]
        = some (failure email 500 "Service error: No AI response")) ∧
    (∀ r : Response, postBfhl email apiKey provider [("AI", Json.str q)] = some r →
      r.body.is_success = true →
      apiKey ≠ "" ∧ ∃ (ans : String) (rest : List String),
        provider ("Answer this question with just one word: " ++ q)
          = ProviderReply.answered (ans :: rest) ∧
        r = success email (Data.text (normalizeAnswer ans))) ∧
    (∀ r : Response, postBfhl email apiKey provider [("AI", Json.str q)] = some r →
      r.body.is_success = false → r.status = 500) := by
  obtain ⟨hr, hc⟩ := postBfhl_AI_valid email apiKey provider q h1 h2
  refine ⟨?_, ?_, ?_, ?_, ?_, ?_, ?_, ?_⟩
  · intro hk
    subst hk
    rw [hr, hc, askAI_no_key]
    exact ⟨rfl, rfl⟩
  · intro hk
    rw [hc, askAICalls_of_key apiKey q hk]
  · rw [hc]
    unfold askAICalls
    split_ifs <;> simp
  · intro s hk hp
    rw [hr, askAI_upstream apiKey provider q s hk hp]
    exact ⟨rfl, suffix_of_append _ _⟩
  · intro m hk hp
    rw [hr, askAI_failed apiKey provider q m hk hp]
  · intro hk hp
    rw [hr, askAI_no_candidate apiKey provider q hk hp]
  · intro r hrr hs
    have hh : handleAI email apiKey provider (Json.str q) = r := by
      have ha : postBfhl email apiKey provider [("AI", Json.str q)]
          = some (handleAI email apiKey provider (Json.str q)) := rfl
      rw [ha] at hrr
      exact Option.some.inj hrr
    rw [← hh] at hs
    obtain ⟨q1, ans, rest, hq, hk, hp, hres⟩ :=
      handleAI_success_data email apiKey provider (Json.str q) hs
    have : q = q1 := Json.str.inj hq
    subst this
    exact ⟨hk, ans, rest, hp, by rw [← hh, hres]⟩
  · intro r hrr hs
    rw [hr] at hrr
    have := Option.some.inj hrr
    subst this
    cases ha : askAI apiKey provider q with
    | ok a => rw [ha] at hs; simp [success] at hs
    | error m => rfl

/-- C15 at the question "What is the capital of France?" with the key "key"
and a provider that reports the upstream status 503. -/
theorem provider_failure_is_a_failure_witness :
    (jsTrim "What is the capital of France?".data ≠ [] ∧
      jsLength "What is the capital of France?" ≤ 500) ∧
    postBfhl "student@chitkara.edu.in" "key" (fun _ => ProviderReply.upstream 503)
        [("AI", Json.str "What is the capital of France?")]
      = some (failure "student@chitkara.edu.in" 500 ("API error: " ++ toString 503)) ∧
    postBfhlCalls "key" [("AI", Json.str "What is the capital of France?")]
      = ["Answer this question with just one word: " ++ "What is the capital of France?"] :=
  ⟨⟨by decide, by decide⟩,
    ((provider_failure_is_a_failure "student@chitkara.edu.in" "key"
      (fun _ => ProviderReply.upstream 503) "What is the capital of France?"
      (by decide) (by decide)).2.2.2.1 503 (by decide) rfl).1,
    (provider_failure_is_a_failure "student@chitkara.edu.in" "key"
      (fun _ => ProviderReply.upstream 503) "What is the capital of France?"
      (by decide) (by decide)).2.1 (by decide)⟩

/-- C16 (the claim fails).  Two transport failures of the same valid request
with different messages give different envelopes, and the error text ends with
the message of the failure. -/
theorem service_error_differs_with_message :
    postBfhl "student@chitkara.edu.in" "key"
        (fun _ => ProviderReply.failed "timeout of 10000ms exceeded") [("AI", Json.str "q")]
      = some (failure "student@chitkara.edu.in" 500
          "Service error: timeout of 10000ms exceeded") ∧
    postBfhl "student@chitkara.edu.in" "key"
        (fun _ => ProviderReply.failed "getaddrinfo ENOTFOUND") [("AI", Json.str "q")]
      = some (failure "student@chitkara.edu.in" 500 "Service error: getaddrinfo ENOTFOUND") ∧
    postBfhl "student@chitkara.edu.in" "key"
        (fun _ => ProviderReply.failed "timeout of 10000ms exceeded") [("AI", Json.str "q")]
      ≠ postBfhl "student@chitkara.edu.in" "key"
        (fun _ => ProviderReply.failed "getaddrinfo ENOTFOUND") [("AI", Json.str "q")] := by
  refine ⟨rfl, rfl, by decide⟩

/-- C16, as amended.  When an input-valid AI request, with an API key
configured, fails without an upstream status, the error surfaced is `"Service
error: "` followed by the message of the underlying failure (`"No AI response"`
when no candidate was returned).  The envelope depends on the failure through
that message only: two such failures give identical responses exactly when
their messages are equal. -/
theorem service_error_carries_the_message (email apiKey : String)
    (provider1 provider2 : String → ProviderReply) (q m1 m2 : String)
    (hk : apiKey ≠ "") (h1 : jsTrim q.data ≠ []) (h2 : jsLength q ≤ 500)
    (hp1 : provider1 ("Answer this question with just one word: " ++ q)
      = ProviderReply.failed m1)
    (hp2 : provider2 ("Answer this question with just one word: " ++ q)
      = ProviderReply.failed m2) :
    postBfhl email apiKey provider1 [("AI", Json.str q)]
      = some (failure email 500 ("Service error: " ++ m1)) ∧
    postBfhl email apiKey provider2 [("AI", Json.str q)]
      = some (failure email 500 ("Service error: " ++ m2)) ∧
    m1.data <:+ ("Service error: " ++ m1).data ∧
    (postBfhl email apiKey provider1 [("AI", Json.str q)]
        = postBfhl email apiKey provider2 [("AI", Json.str q)] ↔ m1 = m2) ∧
    (∀ provider : String → ProviderReply,
      provider ("Answer this question with just one word: " ++ q) = ProviderReply.answered [] →
      postBfhl email apiKey provider [("AI", Json.str q)]
        = some (failure email 500 "Service error: No AI response")) := by
  have e1 : postBfhl email apiKey provider1 [("AI", Json.str q)]
      = some (failure email 500 ("Service error: " ++ m1)) := by
    rw [(postBfhl_AI_valid email apiKey provider1 q h1 h2).1,
      askAI_failed apiKey provider1 q m1 hk hp1]
  have e2 : postBfhl email apiKey provider2 [("AI", Json.str q)]
      = some (failure email 500 ("Service error: " ++ m2)) := by
    rw [(postBfhl_AI_valid email apiKey provider2 q h1 h2).1,
      askAI_failed apiKey provider2 q m2 hk hp2]
  refine ⟨e1, e2, suffix_of_append _ _, ?_, ?_⟩
  · rw [e1, e2]
    constructor
    · intro h
      have h3 := Option.some.inj h
      have h4 : "Service error: " ++ m1 = "Service error: " ++ m2 := by
        simpa [failure] using h3
      exact append_left_cancel _ _ _ h4
    · intro h
      rw [h]
  · intro provider hp
    rw [(postBfhl_AI_valid email apiKey provider q h1 h2).1,
      askAI_no_candidate apiKey provider q hk hp]

/-- C16 as amended, at the question "q" with two failures of the same message. -/
theorem service_error_carries_the_message_witness :
    ("key" ≠ "" ∧ jsTrim "q".data ≠ [] ∧ jsLength "q" ≤ 500) ∧
    postBfhl "student@chitkara.edu.in" "key"
        (fun _ => ProviderReply.failed "socket hang up") [("AI", Json.str "q")]
      = some (failure "student@chitkara.edu.in" 500 ("Service error: " ++ "socket hang up")) :=
  ⟨⟨by decide, by decide, by decide⟩,
    (service_error_carries_the_message "student@chitkara.edu.in" "key"
      (fun _ => ProviderReply.failed "socket hang up")
      (fun _ => ProviderReply.failed "socket hang up") "q" "socket hang up" "socket hang up"
      (by decide) (by decide) (by decide) rfl rfl).1⟩


/-! ## The handler: every path -/

theorem postBfhl_cases (email apiKey : String) (provider : String → ProviderReply)
    (data : Payload) :
    (hasOwnProperty data "hasOwnProperty" = true ∧
      postBfhl email apiKey provider data = some (failure email 500 "Something went wrong")) ∨
    (hasOwnProperty data "hasOwnProperty" = false ∧
      (∀ op : String, op ∈ ops → hasOwnProperty data op = false) ∧
      postBfhl email apiKey provider data = some (failure email 400 "No operation specified")) ∨
    (hasOwnProperty data "hasOwnProperty" = false ∧
      (∃ k1 k2 : String, k1 ∈ ops ∧ k2 ∈ ops ∧ k1 ≠ k2 ∧
        hasOwnProperty data k1 = true ∧ hasOwnProperty data k2 = true) ∧
      postBfhl email apiKey provider data
        = some (failure email 400 "Only one operation allowed per request")) ∨
    (hasOwnProperty data "hasOwnProperty" = false ∧
      ∃ k : String, k ∈ ops ∧ hasOwnProperty data k = true ∧
        (∀ op : String, op ∈ ops → op ≠ k → hasOwnProperty data op = false) ∧
        postBfhl email apiKey provider data =
          if k = "fibonacci" then some (handleFibonacci email (property data "fibonacci"))
          else if k = "prime" then some (handlePrime email (property data "prime"))
          else if k = "lcm" then handleLcm email (property data "lcm")
          else if k = "hcf" then some (handleHcf email (property data "hcf"))
          else some (handleAI email apiKey provider (property data "AI"))) := by
  cases hs : hasOwnProperty data "hasOwnProperty" with
  | true => exact Or.inl ⟨rfl, postBfhl_shadowed email apiKey provider data hs⟩
  | false =>
    right
    by_cases h0 : ∀ op : String, op ∈ ops → hasOwnProperty data op = false
    · exact Or.inl ⟨rfl, h0, postBfhl_no_operation email apiKey provider data hs h0⟩
    · right
      push_neg at h0
      obtain ⟨k, hk, hpres⟩ := h0
      have hpres1 : hasOwnProperty data k = true := by
        cases h : hasOwnProperty data k with
        | true => rfl
        | false => exact absurd h hpres
      by_cases h1 : ∀ op : String, op ∈ ops → op ≠ k → hasOwnProperty data op = false
      · exact Or.inr ⟨rfl, k, hk, hpres1, h1,
          postBfhl_single email apiKey provider data hs k hk hpres1 h1⟩
      · push_neg at h1
        obtain ⟨k2, hk2, hne, hp2⟩ := h1
        have hpres2 : hasOwnProperty data k2 = true := by
          cases h : hasOwnProperty data k2 with
          | true => rfl
          | false => exact absurd h hp2
        exact Or.inl ⟨rfl, ⟨k, k2, hk, hk2, fun h => hne h.symm, hpres1, hpres2⟩,
          postBfhl_two_operations email apiKey provider data hs k k2 hk hk2
            (fun h => hne h.symm) hpres1 hpres2⟩

theorem wellFormed_failure (email : String) (status : Nat) (error : String)
    (h : status = 400 ∨ status = 500) : WellFormed email (failure email status error) :=
  ⟨rfl, Or.inr ⟨h, rfl, rfl, rfl⟩⟩

theorem wellFormed_success (email : String) (d : Data) : WellFormed email (success email d) :=
  ⟨rfl, Or.inl ⟨rfl, rfl, rfl, rfl⟩⟩

theorem wellFormed_handleFibonacci (email : String) (v : Json) :
    WellFormed email (handleFibonacci email v) := by
  unfold handleFibonacci
  split_ifs
  · exact wellFormed_failure _ _ _ (Or.inl rfl)
  · exact wellFormed_failure _ _ _ (Or.inl rfl)
  · exact wellFormed_failure _ _ _ (Or.inl rfl)
  · exact wellFormed_success _ _

theorem wellFormed_handlePrime (email : String) (v : Json) :
    WellFormed email (handlePrime email v) := by
  unfold handlePrime
  split
  · split_ifs
    · exact wellFormed_failure _ _ _ (Or.inl rfl)
    · exact wellFormed_failure _ _ _ (Or.inl rfl)
    · exact wellFormed_failure _ _ _ (Or.inl rfl)
    · exact wellFormed_success _ _
  · exact wellFormed_failure _ _ _ (Or.inl rfl)

theorem wellFormed_handleHcf (email : String) (v : Json) :
    WellFormed email (handleHcf email v) := by
  unfold handleHcf
  split
  · split_ifs
    · exact wellFormed_failure _ _ _ (Or.inl rfl)
    · exact wellFormed_failure _ _ _ (Or.inl rfl)
    · exact wellFormed_failure _ _ _ (Or.inl rfl)
    · exact wellFormed_success _ _
  · exact wellFormed_failure _ _ _ (Or.inl rfl)

theorem wellFormed_handleLcm (email : String) (v : Json) (r : Response)
    (h : handleLcm email v = some r) : WellFormed email r := by
  unfold handleLcm at h
  split at h
  · split_ifs at h
    · rw [← Option.some.inj h]; exact wellFormed_failure _ _ _ (Or.inl rfl)
    · rw [← Option.some.inj h]; exact wellFormed_failure _ _ _ (Or.inl rfl)
    · rw [← Option.some.inj h]; exact wellFormed_failure _ _ _ (Or.inl rfl)
    · rw [← Option.some.inj h]; exact wellFormed_failure _ _ _ (Or.inl rfl)
    · cases hc : calculateLCM _ with
      | none => rw [hc] at h; simp at h
      | some m =>
        rw [hc] at h
        rw [← Option.some.inj h]; exact wellFormed_success _ _
  · rw [← Option.some.inj h]; exact wellFormed_failure _ _ _ (Or.inl rfl)

theorem wellFormed_handleAI (email apiKey : String) (provider : String → ProviderReply)
    (v : Json) : WellFormed email (handleAI email apiKey provider v) := by
  unfold handleAI
  split
  · split_ifs
    · exact wellFormed_failure _ _ _ (Or.inl rfl)
    · exact wellFormed_failure _ _ _ (Or.inl rfl)
    · split
      · exact wellFormed_success _ _
      · exact wellFormed_failure _ _ _ (Or.inr rfl)
  · exact wellFormed_failure _ _ _ (Or.inl rfl)

theorem wellFormed_postBfhl (email apiKey : String) (provider : String → ProviderReply)
    (data : Payload) (r : Response) (h : postBfhl email apiKey provider data = some r) :
    WellFormed email r := by
  rcases postBfhl_cases email apiKey provider data with
    ⟨_, e⟩ | ⟨_, _, e⟩ | ⟨_, _, e⟩ | ⟨_, k, _, _, _, e⟩
  · rw [e] at h; rw [← Option.some.inj h]; exact wellFormed_failure _ _ _ (Or.inr rfl)
  · rw [e] at h; rw [← Option.some.inj h]; exact wellFormed_failure _ _ _ (Or.inl rfl)
  · rw [e] at h; rw [← Option.some.inj h]; exact wellFormed_failure _ _ _ (Or.inl rfl)
  · rw [e] at h
    split_ifs at h
    · rw [← Option.some.inj h]; exact wellFormed_handleFibonacci _ _
    · rw [← Option.some.inj h]; exact wellFormed_handlePrime _ _
    · exact wellFormed_handleLcm _ _ r h
    · rw [← Option.some.inj h]; exact wellFormed_handleHcf _ _
    · rw [← Option.some.inj h]; exact wellFormed_handleAI _ _ _ _


theorem handleLcm_eq_none (email : String) (v : Json) (h : handleLcm email v = none) :
    ∃ ints : List Int, v = Json.arr (ints.map Json.ofInt) ∧ 1 ≤ ints.length ∧
      ints.length ≤ 1000 ∧ (0 : Int) ∉ ints ∧ calculateLCM ints = none := by
  unfold handleLcm at h
  split at h
  · rename_i items
    split_ifs at h with h1 h2 h3 h4
    have hall : items.all isInteger = true := by simpa using h3
    obtain ⟨ints, rfl⟩ := (all_isInteger_iff items).1 hall
    rw [map_integerValue] at h h4
    refine ⟨ints, rfl, ?_, ?_, ?_, ?_⟩
    · rw [List.length_map] at h1; omega
    · rw [List.length_map] at h2; omega
    · intro h0
      exact h4 (List.any_eq_true.2 ⟨0, h0, by simp⟩)
    · cases hc : calculateLCM ints with
      | none => rfl
      | some m => rw [hc] at h; simp at h
  · cases h

theorem postBfhl_eq_none (email apiKey : String) (provider : String → ProviderReply)
    (data : Payload) (h : postBfhl email apiKey provider data = none) :
    hasOwnProperty data "hasOwnProperty" = false ∧ hasOwnProperty data "lcm" = true ∧
    (∀ op : String, op ∈ ops → op ≠ "lcm" → hasOwnProperty data op = false) ∧
    ∃ ints : List Int, property data "lcm" = Json.arr (ints.map Json.ofInt) ∧
      1 ≤ ints.length ∧ ints.length ≤ 1000 ∧ (0 : Int) ∉ ints ∧ calculateLCM ints = none := by
  rcases postBfhl_cases email apiKey provider data with
    ⟨_, e⟩ | ⟨_, _, e⟩ | ⟨_, _, e⟩ | ⟨hs, k, hk, hpres, hother, e⟩
  · rw [e] at h; cases h
  · rw [e] at h; cases h
  · rw [e] at h; cases h
  · rw [e] at h
    split_ifs at h with h1 h2 h3 h4
    · subst h3
      exact ⟨hs, hpres, hother, handleLcm_eq_none email _ h⟩

set_option exponentiation.threshold 2000 in
set_option maxRecDepth 100000 in
theorem jsMul_oneE200 : jsMul oneE200 oneE200 = none := by decide

set_option exponentiation.threshold 2000 in
set_option maxRecDepth 100000 in
theorem calculateLCM_overflow : calculateLCM [oneE200, oneE200, 3] = none := by
  show (getLCM oneE200 oneE200).bind (fun res1 => calculateLCMLoop res1 [3]) = none
  rw [getLCM_unfold]
  decide

set_option exponentiation.threshold 2000 in
set_option maxRecDepth 100000 in
theorem oneE200_ne_zero : (0 : Int) ∉ [oneE200, oneE200, 3] := by decide

theorem postBfhl_lcm_overflow (email apiKey : String) (provider : String → ProviderReply) :
    postBfhl email apiKey provider
        [("lcm", Json.arr [Json.ofInt oneE200, Json.ofInt oneE200, Json.ofInt 3])] = none := by
  have h : ∀ v : Json, postBfhl email apiKey provider [("lcm", v)] = handleLcm email v :=
    fun _ => rfl
  have e : Json.arr [Json.ofInt oneE200, Json.ofInt oneE200, Json.ofInt 3]
      = Json.arr ([oneE200, oneE200, 3].map Json.ofInt) := by
    simp only [List.map_cons, List.map_nil]
  rw [h, e, handleLcm_valid email _ (by simp) (by simp) oneE200_ne_zero, calculateLCM_overflow]
  rfl

/-- C11 (the code departs from the claim).  For the body `{"lcm": [1e200, 1e200,
3]}` the handler sends no response: the array passes every check, the first
product `1e200 * 1e200` overflows to `Infinity`, which becomes `res`, and the
next step calls `getGCD(Infinity, 3)`, whose loop is never left (`b` becomes
`NaN`, and `NaN !== 0` holds).
What does hold: every response the handler sends has the configured address and
is either a success with status 200, data and no error, or a failure with
status 400 or 500, an error and no data; the handler never runs past its last
branch; and it sends a response for every body except some `lcm` requests that
pass validation and whose `calculateLCM` leaves the finite integers, which does
not happen while the product of the magnitudes is below `2 ^ 53`. -/
theorem handler_answers_with_one_envelope :
    (∀ (email apiKey : String) (provider : String → ProviderReply),
      postBfhl email apiKey provider
        [("lcm", Json.arr [Json.ofInt oneE200, Json.ofInt oneE200, Json.ofInt 3])] = none) ∧
    jsMul oneE200 oneE200 = none ∧
    (∀ n : Nat, gcdRun n JsNum.infinity (JsNum.finite 3) = none) ∧
    (∀ (email apiKey : String) (provider : String → ProviderReply) (data : Payload)
      (r : Response), postBfhl email apiKey provider data = some r →
      r.body.official_email = email ∧
      (r.body.is_success = true ↔ r.body.data.isSome = true) ∧
      (r.body.is_success = false ↔ r.body.error.isSome = true) ∧
      (r.body.data.isSome = true ↔ r.body.error = none) ∧
      (r.body.data.isSome = true ∨ r.body.error.isSome = true)) ∧
    (∀ (email apiKey : String) (provider : String → ProviderReply) (data : Payload),
      postBfhl email apiKey provider data = none →
      hasOwnProperty data "hasOwnProperty" = false ∧ hasOwnProperty data "lcm" = true ∧
      (∀ op : String, op ∈ ops → op ≠ "lcm" → hasOwnProperty data op = false) ∧
      ∃ ints : List Int, property data "lcm" = Json.arr (ints.map Json.ofInt) ∧
        1 ≤ ints.length ∧ ints.length ≤ 1000 ∧ (0 : Int) ∉ ints ∧
        calculateLCM ints = none ∧ 2 ^ 53 ≤ magnitudeProduct ints) ∧
    (∀ (email apiKey : String) (provider : String → ProviderReply) (data : Payload),
      hasOwnProperty data "lcm" = false →
      ∃ r : Response, postBfhl email apiKey provider data = some r) := by
  refine ⟨postBfhl_lcm_overflow, jsMul_oneE200,
    fun n => gcdRun_infinity n 3 (by decide), ?_, ?_, ?_⟩
  · intro email apiKey provider data r h
    obtain ⟨he, hw⟩ := wellFormed_postBfhl email apiKey provider data r h
    refine ⟨he, ?_⟩
    rcases hw with ⟨_, h1, h2, h3⟩ | ⟨_, h1, h2, h3⟩
    · simp [h1, h2, h3]
    · simp [h1, h2, h3]
      cases he2 : r.body.error with
      | none => rw [he2] at h3; cases h3
      | some e => simp
  · intro email apiKey provider data h
    obtain ⟨hs, hl, ho, ints, hv, h1, h2, h0, hc⟩ :=
      postBfhl_eq_none email apiKey provider data h
    refine ⟨hs, hl, ho, ints, hv, h1, h2, h0, hc, ?_⟩
    by_contra hlt
    cases ints with
    | nil => simp at h1
    | cons x rest =>
      have hne : ∀ y ∈ x :: rest, y ≠ 0 := fun y hy hy0 => h0 (hy0 ▸ hy)
      rw [calculateLCM_exact x rest hne (by omega)] at hc
      cases hc
  · intro email apiKey provider data hl
    cases hp : postBfhl email apiKey provider data with
    | some r => exact ⟨r, rfl⟩
    | none =>
      have := (postBfhl_eq_none email apiKey provider data hp).2.1
      rw [hl] at this
      cases this


/-! ## The handler: the status code -/

theorem status_handleFibonacci (email : String) (v : Json) :
    (handleFibonacci email v).status ≠ 500 := by
  unfold handleFibonacci
  split_ifs <;> simp [failure, success]

theorem status_handlePrime (email : String) (v : Json) :
    (handlePrime email v).status ≠ 500 := by
  unfold handlePrime
  split
  · split_ifs <;> simp [failure, success]
  · simp [failure]

theorem status_handleHcf (email : String) (v : Json) :
    (handleHcf email v).status ≠ 500 := by
  unfold handleHcf
  split
  · split_ifs <;> simp [failure, success]
  · simp [failure]

theorem status_handleLcm (email : String) (v : Json) (r : Response)
    (h : handleLcm email v = some r) : r.status ≠ 500 := by
  unfold handleLcm at h
  split at h
  · split_ifs at h
    · rw [← Option.some.inj h]; simp [failure]
    · rw [← Option.some.inj h]; simp [failure]
    · rw [← Option.some.inj h]; simp [failure]
    · rw [← Option.some.inj h]; simp [failure]
    · cases hc : calculateLCM _ with
      | none => rw [hc] at h; simp at h
      | some m =>
        rw [hc] at h
        rw [← Option.some.inj h]; simp [success]
  · rw [← Option.some.inj h]; simp [failure]

theorem status_handleAI (email apiKey : String) (provider : String → ProviderReply) (v : Json) :
    (handleAI email apiKey provider v).status = 500 ↔
      ∃ q m : String, v = Json.str q ∧ jsTrim q.data ≠ [] ∧ jsLength q ≤ 500 ∧
        askAI apiKey provider q = Except.error m := by
  constructor
  · intro h
    unfold handleAI at h
    split at h
    · rename_i q
      split_ifs at h with h1 h2
      · simp [failure] at h
      · simp [failure] at h
      · cases ha : askAI apiKey provider q with
        | ok a => rw [ha] at h; simp [success] at h
        | error m =>
          refine ⟨q, m, rfl, ?_, by omega, ha⟩
          intro hnil
          rw [hnil] at h1
          exact h1 rfl
    · simp [failure] at h
  · rintro ⟨q, m, rfl, h1, h2, ha⟩
    rw [(handleAI_valid email apiKey provider q (not_all_whitespace_of_trim h1) h2).1, ha]
    rfl

/-- The status of every response `r` the handler sends: it is 200, 400 or 500;
it is 200 exactly when `is_success` is true; it is 500 exactly when the body
has an own key `hasOwnProperty` (the outer `catch` answers) or the only
operation key is `AI`, its value is a valid question and `askAI` threw; it is
400 in every other failure.  For a body without an own key `hasOwnProperty`
it is 400 when no operation key or more than one is present. -/
theorem status_of_response (email apiKey : String) (provider : String → ProviderReply)
    (data : Payload) (r : Response) (h : postBfhl email apiKey provider data = some r) :
    (r.status = 200 ∨ r.status = 400 ∨ r.status = 500) ∧
    (r.status = 200 ↔ r.body.is_success = true) ∧
    (r.status = 500 ↔
      (hasOwnProperty data "hasOwnProperty" = true ∨
        (hasOwnProperty data "hasOwnProperty" = false ∧ hasOwnProperty data "AI" = true ∧
          (∀ op : String, op ∈ ops → op ≠ "AI" → hasOwnProperty data op = false) ∧
          ∃ q m : String, property data "AI" = Json.str q ∧ jsTrim q.data ≠ [] ∧
            jsLength q ≤ 500 ∧ askAI apiKey provider q = Except.error m))) ∧
    (r.status = 400 ↔ (r.body.is_success = false ∧ r.status ≠ 500)) ∧
    (hasOwnProperty data "hasOwnProperty" = false →
      (∀ op : String, op ∈ ops → hasOwnProperty data op = false) → r.status = 400) ∧
    (hasOwnProperty data "hasOwnProperty" = false →
      (∃ k1 k2 : String, k1 ∈ ops ∧ k2 ∈ ops ∧ k1 ≠ k2 ∧
        hasOwnProperty data k1 = true ∧ hasOwnProperty data k2 = true) → r.status = 400) := by
  obtain ⟨_, hw⟩ := wellFormed_postBfhl email apiKey provider data r h
  have hA : r.status = 200 ∨ r.status = 400 ∨ r.status = 500 := by
    rcases hw with ⟨h1, _⟩ | ⟨h1 | h1, _⟩
    · exact Or.inl h1
    · exact Or.inr (Or.inl h1)
    · exact Or.inr (Or.inr h1)
  have hB : r.status = 200 ↔ r.body.is_success = true := by
    rcases hw with ⟨h1, h2, _⟩ | ⟨h1 | h1, h2, _⟩
    · simp [h1, h2]
    · simp [h1, h2]
    · simp [h1, h2]
  have hD : r.status = 400 ↔ (r.body.is_success = false ∧ r.status ≠ 500) := by
    rcases hw with ⟨h1, h2, _⟩ | ⟨h1 | h1, h2, _⟩
    · simp [h1, h2]
    · simp [h1, h2]
    · simp [h1, h2]
  refine ⟨hA, hB, ?_, hD, ?_, ?_⟩
  · rcases postBfhl_cases email apiKey provider data with
      ⟨hs, e⟩ | ⟨hs, h0, e⟩ | ⟨hs, ⟨k1, k2, hk1, hk2, hne, hp1, hp2⟩, e⟩ |
      ⟨hs, k, hk, hpres, hother, e⟩
    · rw [e] at h
      rw [← Option.some.inj h]
      simp [hs, failure]
    · rw [e] at h
      rw [← Option.some.inj h]
      have ha := h0 "AI" (by decide)
      simp [hs, ha, failure]
    · rw [e] at h
      rw [← Option.some.inj h]
      simp only [failure, hs, Bool.false_eq_true, false_or, true_and]
      constructor
      · intro h5; simp at h5
      · rintro ⟨ha, hoth, _⟩
        exfalso
        by_cases hk1a : k1 = "AI"
        · have := hoth k2 hk2 (fun h2 => hne (hk1a.trans h2.symm))
          rw [this] at hp2; cases hp2
        · have := hoth k1 hk1 hk1a
          rw [this] at hp1; cases hp1
    · rw [e] at h
      simp only [hs, Bool.false_eq_true, false_or, true_and]
      by_cases hkA : k = "AI"
      · subst hkA
        rw [if_neg (by decide), if_neg (by decide), if_neg (by decide), if_neg (by decide)] at h
        rw [← Option.some.inj h, status_handleAI]
        constructor
        · intro hx
          exact ⟨hpres, hother, hx⟩
        · rintro ⟨_, _, hx⟩
          exact hx
      · have hnotAI : hasOwnProperty data "AI" = false := hother "AI" (by decide) (Ne.symm hkA)
        have hne500 : r.status ≠ 500 := by
          split_ifs at h
          · rw [← Option.some.inj h]; exact status_handleFibonacci _ _
          · rw [← Option.some.inj h]; exact status_handlePrime _ _
          · exact status_handleLcm _ _ r h
          · rw [← Option.some.inj h]; exact status_handleHcf _ _
          · simp only [ops, List.mem_cons, List.mem_singleton, List.not_mem_nil, or_false] at hk
            rcases hk with rfl | rfl | rfl | rfl | rfl <;> simp_all
        constructor
        · intro h5; exact absurd h5 hne500
        · rintro ⟨ha, _⟩
          rw [hnotAI] at ha; cases ha
  · intro hs h0
    rw [postBfhl_no_operation email apiKey provider data hs h0] at h
    rw [← Option.some.inj h]; rfl
  · rintro hs ⟨k1, k2, hk1, hk2, hne, hp1, hp2⟩
    rw [postBfhl_two_operations email apiKey provider data hs k1 k2 hk1 hk2 hne hp1 hp2] at h
    rw [← Option.some.inj h]; rfl

/-! ## The handler: the order of the checks -/

theorem handleFibonacci_fraction (email : String) (x : ℚ) (h : x.isInt = false) :
    handleFibonacci email (Json.num x) = failure email 400 "Fibonacci input must be an integer" := by
  unfold handleFibonacci
  simp [isNumber, isInteger, h]

theorem handlePrime_too_large (email : String) (items : List Json) (h : 10000 < items.length) :
    handlePrime email (Json.arr items) = failure email 400 "Array too large" := by
  unfold handlePrime
  simp only
  rw [if_neg (by omega), if_pos h]

theorem handleLcm_too_large (email : String) (items : List Json) (h : 1000 < items.length) :
    handleLcm email (Json.arr items) = some (failure email 400 "Array too large") := by
  unfold handleLcm
  simp only
  rw [if_neg (by omega), if_pos h]

theorem handleHcf_too_large (email : String) (items : List Json) (h : 1000 < items.length) :
    handleHcf email (Json.arr items) = failure email 400 "Array too large" := by
  unfold handleHcf
  simp only
  rw [if_neg (by omega), if_pos h]

theorem handleLcm_not_integers (email : String) (items : List Json) (h1 : 1 ≤ items.length)
    (h2 : items.length ≤ 1000) (h3 : items.all isInteger = false) :
    handleLcm email (Json.arr items) = some (failure email 400 "All elements must be integers") := by
  unfold handleLcm
  simp only
  rw [if_neg (by omega), if_neg (by omega), h3]
  rfl

/-- C18.  The checks run in a fixed order and the first one that fails gives
the error.  `{fibonacci: x}` with a fractional `x` gives the integer-type error
whatever its sign (so for -1.5).  An array longer than the limit gives `"Array
too large"` for prime, lcm and hcf, whatever its elements.  An lcm array of 1
to 1000 elements that are not all integers gives `"All elements must be
integers"` also when it contains a zero (so for `[0, 1.5]`).  A question made
of white space only gives `"Question cannot be empty"` whatever its length (so
for 501 blanks).  Every failure the handler sends carries an error string and
no data. -/
theorem first_failing_check_wins :
    (∀ (email apiKey : String) (provider : String → ProviderReply) (x : ℚ), x.isInt = false →
      postBfhl email apiKey provider [("fibonacci", Json.num x)]
        = some (failure email 400 "Fibonacci input must be an integer")) ∧
    (∀ (email apiKey : String) (provider : String → ProviderReply),
      postBfhl email apiKey provider [("fibonacci", Json.num (mkRat (-3) 2))]
        = some (failure email 400 "Fibonacci input must be an integer")) ∧
    (∀ (email apiKey : String) (provider : String → ProviderReply) (items : List Json),
      (10000 < items.length →
        postBfhl email apiKey provider [("prime", Json.arr items)]
          = some (failure email 400 "Array too large")) ∧
      (1000 < items.length →
        postBfhl email apiKey provider [("lcm", Json.arr items)]
          = some (failure email 400 "Array too large") ∧
        postBfhl email apiKey provider [("hcf", Json.arr items)]
          = some (failure email 400 "Array too large")) ∧
      (1 ≤ items.length → items.length ≤ 1000 → items.all isInteger = false →
        postBfhl email apiKey provider [("lcm", Json.arr items)]
          = some (failure email 400 "All elements must be integers"))) ∧
    (∀ (email apiKey : String) (provider : String → ProviderReply),
      postBfhl email apiKey provider [("lcm", Json.arr [Json.ofInt 0, Json.num (mkRat 3 2)])]
        = some (failure email 400 "All elements must be integers")) ∧
    (∀ (email apiKey : String) (provider : String → ProviderReply) (q : String),
      (∀ c ∈ q.data, isJsWhitespace c = true) →
      postBfhl email apiKey provider [("AI", Json.str q)]
        = some (failure email 400 "Question cannot be empty")) ∧
    (∀ (email apiKey : String) (provider : String → ProviderReply),
      500 < jsLength (String.mk (List.replicate 501 ' ')) ∧
      postBfhl email apiKey provider [("AI", Json.str (String.mk (List.replicate 501 ' ')))]
        = some (failure email 400 "Question cannot be empty")) ∧
    (∀ (email apiKey : String) (provider : String → ProviderReply) (data : Payload)
      (r : Response), postBfhl email apiKey provider data = some r →
      r.body.is_success = false →
      r.body.data = none ∧ ∃ e : String, r.body.error = some e) := by
  have hF : ∀ (email apiKey : String) (provider : String → ProviderReply) (v : Json),
      postBfhl email apiKey provider [("fibonacci", v)] = some (handleFibonacci email v) :=
    fun _ _ _ _ => rfl
  have hP : ∀ (email apiKey : String) (provider : String → ProviderReply) (v : Json),
      postBfhl email apiKey provider [("prime", v)] = some (handlePrime email v) :=
    fun _ _ _ _ => rfl
  have hL : ∀ (email apiKey : String) (provider : String → ProviderReply) (v : Json),
      postBfhl email apiKey provider [("lcm", v)] = handleLcm email v :=
    fun _ _ _ _ => rfl
  have hH : ∀ (email apiKey : String) (provider : String → ProviderReply) (v : Json),
      postBfhl email apiKey provider [("hcf", v)] = some (handleHcf email v) :=
    fun _ _ _ _ => rfl
  have hA : ∀ (email apiKey : String) (provider : String → ProviderReply) (v : Json),
      postBfhl email apiKey provider [("AI", v)] = some (handleAI email apiKey provider v) :=
    fun _ _ _ _ => rfl
  refine ⟨?_, ?_, ?_, ?_, ?_, ?_, ?_⟩
  · intro email apiKey provider x hx
    rw [hF, handleFibonacci_fraction email x hx]
  · intro email apiKey provider
    rw [hF, handleFibonacci_fraction email _ (by decide)]
  · intro email apiKey provider items
    refine ⟨?_, ?_, ?_⟩
    · intro h
      rw [hP, handlePrime_too_large email items h]
    · intro h
      rw [hL, hH, handleLcm_too_large email items h, handleHcf_too_large email items h]
      exact ⟨rfl, rfl⟩
    · intro h1 h2 h3
      rw [hL, handleLcm_not_integers email items h1 h2 h3]
  · intro email apiKey provider
    rw [hL, handleLcm_not_integers email _ (by simp) (by simp) (by decide)]
  · intro email apiKey provider q hq
    rw [hA, (handleAI_empty email apiKey provider q hq).1]
  · intro email apiKey provider
    have hws : ∀ c ∈ (String.mk (List.replicate 501 ' ')).data, isJsWhitespace c = true := by
      intro c hc
      have : c = ' ' := List.eq_of_mem_replicate hc
      subst this
      decide
    refine ⟨?_, ?_⟩
    · have : jsLength (String.mk (List.replicate 501 ' ')) = 501 := by
        unfold jsLength
        have hmap : ∀ n : Nat, ((List.replicate n ' ').map
            fun c : Char => if c.toNat < 65536 then 1 else 2).sum = n := by
          intro n
          induction n with
          | zero => rfl
          | succ n ih =>
            simp only [List.replicate_succ, List.map_cons, List.sum_cons, ih]
            have : (' ' : Char).toNat < 65536 := by decide
            simp [this]
            omega
        exact hmap 501
      omega
    · rw [hA, (handleAI_empty email apiKey provider _ hws).1]
  · intro email apiKey provider data r h hs
    obtain ⟨_, hw⟩ := wellFormed_postBfhl email apiKey provider data r h
    rcases hw with ⟨_, h1, _⟩ | ⟨_, _, h2, h3⟩
    · rw [h1] at hs; cases hs
    · refine ⟨h2, ?_⟩
      cases he : r.body.error with
      | none => rw [he] at h3; cases h3
      | some e => exact ⟨e, rfl⟩


/-! ## The AI branch: the data of a success -/

theorem handleAI_success_valid (email apiKey : String) (provider : String → ProviderReply)
    (v : Json) (h : (handleAI email apiKey provider v).body.is_success = true) :
    ∃ (q ans : String) (rest : List String), v = Json.str q ∧
      jsTrim q.data ≠ [] ∧ jsLength q ≤ 500 ∧ apiKey ≠ "" ∧
      provider ("Answer this question with just one word: " ++ q)
        = ProviderReply.answered (ans :: rest) ∧
      handleAI email apiKey provider v = success email (Data.text (normalizeAnswer ans)) := by
  obtain ⟨q, ans, rest, hv, hk, hp, hr⟩ := handleAI_success_data email apiKey provider v h
  subst hv
  refine ⟨q, ans, rest, rfl, ?_, ?_, hk, hp, hr⟩
  · intro hnil
    have hws : ∀ c ∈ q.data, isJsWhitespace c = true := (jsTrim_eq_nil_iff q.data).1 hnil
    rw [(handleAI_empty email apiKey provider q hws).1] at h
    simp [failure] at h
  · by_contra hlen
    by_cases hws : ∀ c ∈ q.data, isJsWhitespace c = true
    · rw [(handleAI_empty email apiKey provider q hws).1] at h
      simp [failure] at h
    · rw [(handleAI_too_long email apiKey provider q hws (by omega)).1] at h
      simp [failure] at h

theorem postBfhl_AI_success (email apiKey : String) (provider : String → ProviderReply)
    (data : Payload) (r : Response) (h : postBfhl email apiKey provider data = some r)
    (hA : hasOwnProperty data "AI" = true) (hr : r.body.is_success = true) :
    ∃ (q ans : String) (rest : List String), property data "AI" = Json.str q ∧
      jsTrim q.data ≠ [] ∧ jsLength q ≤ 500 ∧ apiKey ≠ "" ∧
      provider ("Answer this question with just one word: " ++ q)
        = ProviderReply.answered (ans :: rest) ∧
      r = success email (Data.text (normalizeAnswer ans)) := by
  rcases postBfhl_cases email apiKey provider data with
    ⟨_, e⟩ | ⟨_, h0, e⟩ | ⟨_, _, e⟩ | ⟨hs, k, hk, hpres, hother, e⟩
  · rw [e] at h; rw [← Option.some.inj h] at hr; simp [failure] at hr
  · rw [e] at h; rw [← Option.some.inj h] at hr; simp [failure] at hr
  · rw [e] at h; rw [← Option.some.inj h] at hr; simp [failure] at hr
  · by_cases hkA : k = "AI"
    · subst hkA
      rw [e, if_neg (by decide), if_neg (by decide), if_neg (by decide), if_neg (by decide)] at h
      have hr2 := Option.some.inj h
      rw [← hr2] at hr
      obtain ⟨q, ans, rest, hv, h1, h2, hk2, hp, hx⟩ :=
        handleAI_success_valid email apiKey provider _ hr
      exact ⟨q, ans, rest, hv, h1, h2, hk2, hp, by rw [← hr2, hx]⟩
    · have := hother "AI" (by decide) (Ne.symm hkA)
      rw [this] at hA; cases hA

/-- C17, as amended.  Whenever the AI operation succeeds, the value of the key
`AI` is a valid question `q`, the key is configured, the provider answered the
prompt for `q` with at least one candidate, and the response is the success
whose data is `normalizeAnswer ans` for the first candidate `ans` of that very
reply: first for the branch `handleAI`, then for every body the handler answers.
Conversely every valid question whose provider reply has the first candidate
`ans` is answered with the success carrying `normalizeAnswer ans`.  For every
text the normalised answer contains no white space.  It is non-empty exactly
when the first token of the text has a character other than `. , ! ? ; :`; the
first token is empty exactly when the text is empty or consists of white space
only.  In those cases the answer is the empty string. -/
theorem normalized_answer_has_no_whitespace :
    (∀ (email apiKey : String) (provider : String → ProviderReply) (v : Json),
      (handleAI email apiKey provider v).body.is_success = true →
      ∃ (q ans : String) (rest : List String), v = Json.str q ∧
        jsTrim q.data ≠ [] ∧ jsLength q ≤ 500 ∧ apiKey ≠ "" ∧
        provider ("Answer this question with just one word: " ++ q)
          = ProviderReply.answered (ans :: rest) ∧
        handleAI email apiKey provider v = success email (Data.text (normalizeAnswer ans)) ∧
        (handleAI email apiKey provider v).body.data
          = some (Data.text (normalizeAnswer ans))) ∧
    (∀ (email apiKey : String) (provider : String → ProviderReply) (data : Payload)
      (r : Response),
      postBfhl email apiKey provider data = some r →
      hasOwnProperty data "AI" = true → r.body.is_success = true →
      ∃ (q ans : String) (rest : List String), property data "AI" = Json.str q ∧
        jsTrim q.data ≠ [] ∧ jsLength q ≤ 500 ∧ apiKey ≠ "" ∧
        provider ("Answer this question with just one word: " ++ q)
          = ProviderReply.answered (ans :: rest) ∧
        r = success email (Data.text (normalizeAnswer ans)) ∧
        r.body.data = some (Data.text (normalizeAnswer ans))) ∧
    (∀ (email apiKey : String) (provider : String → ProviderReply) (q ans : String)
      (rest : List String),
      jsTrim q.data ≠ [] → jsLength q ≤ 500 → apiKey ≠ "" →
      provider ("Answer this question with just one word: " ++ q)
        = ProviderReply.answered (ans :: rest) →
      askAI apiKey provider q = Except.ok (normalizeAnswer ans) ∧
      postBfhl email apiKey provider [("AI", Json.str q)]
        = some (success email (Data.text (normalizeAnswer ans)))) ∧
    (∀ ans : String,
      (∀ c ∈ (normalizeAnswer ans).data, isJsWhitespace c = false) ∧
      (normalizeAnswer ans ≠ "" ↔ ∃ c ∈ firstWord ans.data, isTrailingPunctuation c = false) ∧
      (firstWord ans.data = [] ↔ ∀ c ∈ ans.data, isJsWhitespace c = true) ∧
      ((∀ c ∈ ans.data, isJsWhitespace c = true) → normalizeAnswer ans = "")) := by
  refine ⟨?_, ?_, ?_,
    fun ans => ⟨normalizeAnswer_no_whitespace ans, ?_, firstWord_eq_nil_iff ans.data, ?_⟩⟩
  · intro email apiKey provider v h
    obtain ⟨q, ans, rest, hv, h1, h2, hk, hp, hr⟩ :=
      handleAI_success_valid email apiKey provider v h
    exact ⟨q, ans, rest, hv, h1, h2, hk, hp, hr, by rw [hr]; rfl⟩
  · intro email apiKey provider data r h hA hr
    obtain ⟨q, ans, rest, hv, h1, h2, hk, hp, hx⟩ :=
      postBfhl_AI_success email apiKey provider data r h hA hr
    exact ⟨q, ans, rest, hv, h1, h2, hk, hp, hx, by rw [hx]; rfl⟩
  · intro email apiKey provider q ans rest h1 h2 hk hp
    have ha := askAI_answered apiKey provider q ans rest hk hp
    refine ⟨ha, ?_⟩
    rw [(postBfhl_AI_valid email apiKey provider q h1 h2).1, ha]
  · rw [Ne, normalizeAnswer_eq_empty_iff]
    simp
  · intro h
    rw [normalizeAnswer_eq_empty_iff, (firstWord_eq_nil_iff ans.data).2 h]
    intro c hc
    cases hc

/-! ## The status code and the shadowed method -/

theorem askAI_error_iff (apiKey : String) (provider : String → ProviderReply) (q : String) :
    (∃ m : String, askAI apiKey provider q = Except.error m) ↔
      (apiKey = "" ∨
        provider ("Answer this question with just one word: " ++ q) = ProviderReply.answered [] ∨
        (∃ s : Nat, provider ("Answer this question with just one word: " ++ q)
          = ProviderReply.upstream s) ∨
        ∃ msg : String, provider ("Answer this question with just one word: " ++ q)
          = ProviderReply.failed msg) := by
  unfold askAI
  by_cases hk : apiKey = ""
  · rw [if_pos hk]
    exact ⟨fun _ => Or.inl hk, fun _ => ⟨_, rfl⟩⟩
  · rw [if_neg hk]
    cases hp : provider ("Answer this question with just one word: " ++ q) with
    | answered texts =>
      cases texts with
      | nil => exact ⟨fun _ => Or.inr (Or.inl rfl), fun _ => ⟨_, rfl⟩⟩
      | cons ans rest =>
        constructor
        · rintro ⟨m, hm⟩
          cases hm
        · rintro (h | h | ⟨s, h⟩ | ⟨msg, h⟩)
          · exact absurd h hk
          · cases h
          · cases h
          · cases h
    | upstream s => exact ⟨fun _ => Or.inr (Or.inr (Or.inl ⟨s, rfl⟩)), fun _ => ⟨_, rfl⟩⟩
    | failed msg => exact ⟨fun _ => Or.inr (Or.inr (Or.inr ⟨msg, rfl⟩)), fun _ => ⟨_, rfl⟩⟩

/-- C12 (the code departs from the claim).  The body `{"hasOwnProperty": 1}` has
none of the five operation keys, `{"fibonacci": 5, "prime": [2],
"hasOwnProperty": 0}` has two of them and `{"fibonacci": -1, "hasOwnProperty":
1}` a negative fibonacci input, yet all three are answered with status 500 and
`"Something went wrong"`, where `{}`, `{"fibonacci": 5, "prime": [2]}` and
`{"fibonacci": -1}` are answered with status 400: every body with an own key
`hasOwnProperty` is answered 500, whatever else it holds.  What does hold: a
body without that own key is answered 400 when it has no operation key or more
than one.  Every response `r` the handler sends has status 200, 400 or 500;
200 exactly when `is_success` is true; 500 exactly when the body has the own
key `hasOwnProperty` or its only operation key is `AI` with a valid question on
which `askAI` threw; 400 in every other failure.  `askAI` throws exactly when
the key is not configured, the reply has no candidate, the provider answered
with an error status, or the call failed.  The bodies for which no response is
described are the lone-`lcm` requests that pass every check and whose
`calculateLCM` leaves the finite integers. -/
theorem shadowed_request_is_answered_500 :
    (∀ (email apiKey : String) (provider : String → ProviderReply),
      (∀ op : String, op ∈ ops → hasOwnProperty [("hasOwnProperty", Json.ofInt 1)] op = false) ∧
      postBfhl email apiKey provider [("hasOwnProperty", Json.ofInt 1)]
        = some (failure email 500 "Something went wrong") ∧
      postBfhl email apiKey provider
          [("fibonacci", Json.ofInt 5), ("prime", Json.arr [Json.ofInt 2]),
            ("hasOwnProperty", Json.ofInt 0)]
        = some (failure email 500 "Something went wrong") ∧
      postBfhl email apiKey provider
          [("fibonacci", Json.ofInt (-1)), ("hasOwnProperty", Json.ofInt 1)]
        = some (failure email 500 "Something went wrong") ∧
      (failure email 500 "Something went wrong").status = 500 ∧
      (failure email 500 "Something went wrong").body.is_success = false ∧
      postBfhl email apiKey provider [] = some (failure email 400 "No operation specified") ∧
      postBfhl email apiKey provider
          [("fibonacci", Json.ofInt 5), ("prime", Json.arr [Json.ofInt 2])]
        = some (failure email 400 "Only one operation allowed per request") ∧
      postBfhl email apiKey provider [("fibonacci", Json.ofInt (-1))]
        = some (failure email 400 "Input cannot be negative")) ∧
    (∀ (email apiKey : String) (provider : String → ProviderReply) (data : Payload),
      hasOwnProperty data "hasOwnProperty" = true →
      postBfhl email apiKey provider data = some (failure email 500 "Something went wrong")) ∧
    (∀ (email apiKey : String) (provider : String → ProviderReply) (data : Payload),
      hasOwnProperty data "hasOwnProperty" = false →
      ((∀ op : String, op ∈ ops → hasOwnProperty data op = false) →
        postBfhl email apiKey provider data
          = some (failure email 400 "No operation specified")) ∧
      ((∃ k1 k2 : String, k1 ∈ ops ∧ k2 ∈ ops ∧ k1 ≠ k2 ∧
          hasOwnProperty data k1 = true ∧ hasOwnProperty data k2 = true) →
        postBfhl email apiKey provider data
          = some (failure email 400 "Only one operation allowed per request"))) ∧
    (∀ (email apiKey : String) (provider : String → ProviderReply) (data : Payload)
      (r : Response),
      postBfhl email apiKey provider data = some r →
      (r.status = 200 ∨ r.status = 400 ∨ r.status = 500) ∧
      (r.status = 200 ↔ r.body.is_success = true) ∧
      (r.status = 500 ↔
        (hasOwnProperty data "hasOwnProperty" = true ∨
          (hasOwnProperty data "hasOwnProperty" = false ∧ hasOwnProperty data "AI" = true ∧
            (∀ op : String, op ∈ ops → op ≠ "AI" → hasOwnProperty data op = false) ∧
            ∃ q m : String, property data "AI" = Json.str q ∧ jsTrim q.data ≠ [] ∧
              jsLength q ≤ 500 ∧ askAI apiKey provider q = Except.error m))) ∧
      (r.status = 400 ↔ (r.body.is_success = false ∧ r.status ≠ 500))) ∧
    (∀ (apiKey : String) (provider : String → ProviderReply) (q : String),
      (∃ m : String, askAI apiKey provider q = Except.error m) ↔
        (apiKey = "" ∨
          provider ("Answer this question with just one word: " ++ q)
            = ProviderReply.answered [] ∨
          (∃ s : Nat, provider ("Answer this question with just one word: " ++ q)
            = ProviderReply.upstream s) ∨
          ∃ msg : String, provider ("Answer this question with just one word: " ++ q)
            = ProviderReply.failed msg)) ∧
    (∀ (email apiKey : String) (provider : String → ProviderReply) (data : Payload),
      postBfhl email apiKey provider data = none →
      hasOwnProperty data "hasOwnProperty" = false ∧ hasOwnProperty data "lcm" = true ∧
      (∀ op : String, op ∈ ops → op ≠ "lcm" → hasOwnProperty data op = false) ∧
      ∃ ints : List Int, property data "lcm" = Json.arr (ints.map Json.ofInt) ∧
        1 ≤ ints.length ∧ ints.length ≤ 1000 ∧ (0 : Int) ∉ ints ∧
        calculateLCM ints = none) := by
  refine ⟨fun email apiKey provider => ⟨by decide, rfl, rfl, rfl, rfl, rfl, rfl, rfl, rfl⟩,
    postBfhl_shadowed, ?_, ?_, askAI_error_iff, postBfhl_eq_none⟩
  · intro email apiKey provider data hs
    refine ⟨postBfhl_no_operation email apiKey provider data hs, ?_⟩
    rintro ⟨k1, k2, hk1, hk2, hne, hp1, hp2⟩
    exact postBfhl_two_operations email apiKey provider data hs k1 k2 hk1 hk2 hne hp1 hp2
  · intro email apiKey provider data r h
    obtain ⟨h1, h2, h3, h4, _, _⟩ := status_of_response email apiKey provider data r h
    exact ⟨h1, h2, h3, h4⟩

end Bfhl
